import Mathlib

/-!
THaScaler: scaler bank extraction, normalization and rates.

A shallow embedding of `src/scaler/hana_scaler/THaScaler.C`.

* `Int_t` values are integers; arithmetic that can leave the 32-bit range is
  wrapped with `wrap32`, and the bit pattern of a word is `u32`.
* `Double_t` values are rationals; a `Double_t` division is `fdiv`, which has
  no rational result when the divisor is zero.
* `rawdata` is the memory reached through the `rawdata` pointer, a map from
  index to `Int_t`; the allocated array is the index range `0 .. 2*SCAL_NUMBANK*SCAL_NUMCHAN`.
-/

namespace Scaler

/-- Modelled from the spec: `SCAL_NUMBANK` is defined in THaScaler.h, which is not
among the sources; the data map of `InitData` lists 12 online slots per bank. -/
def SCAL_NUMBANK : Nat := 12

/-- Modelled from the spec: `SCAL_NUMCHAN` is defined in THaScaler.h, which is not
among the sources; `Print` lays a slot out as 32 channels. -/
def SCAL_NUMCHAN : Nat := 32

/-- Two's-complement wrap of an integer to the range of `Int_t`. -/
def wrap32 (x : Int) : Int := (x + 2147483648) % 4294967296 - 2147483648

/-- Bit pattern of an `Int_t`, as an unsigned 32-bit number. -/
def u32 (x : Int) : Nat := (x % 4294967296).toNat

/-- The `Int_t` whose bit pattern is `n`. -/
def toInt32 (n : Nat) : Int := wrap32 n

/-- Subtraction of two `Int_t`. -/
def isub (a b : Int) : Int := wrap32 (a - b)

/-- Division of two `Double_t`: no rational result on a zero divisor. -/
def fdiv (a b : ℚ) : Option ℚ := if b = 0 then none else some (a / b)

/-- Assignment `raw[k] = v`. -/
def setAt (raw : Int → Int) (k v : Int) : Int → Int :=
  fun k' => if k' = k then v else raw k'

/-- Read `data[j]`; a read past the end of the supplied words yields 0. -/
def rd (data : List Int) (j : Nat) : Int := data.getD j 0

/-- The collaborator `THaScalerDB`, as far as THaScaler.C calls it. -/
structure THaScalerDB where
  GetSlot : Int → String → Int → Int
  GetChan : Int → String → Int → Int → Int
  GetShortNames : Int → Int → Int → List String

/-- The data members of `THaScaler`.  `database` is `none` for a null pointer;
`buffSize` is what `fcodafile->getBuffSize()` returns.
Modelled from the spec: `header` is declared in THaScaler.h, which is not among the
sources; it is the 32-bit header pattern that `(unsigned long)header` compares
against. -/
structure THaScaler where
  bankgroup : String
  database : Option THaScalerDB
  did_init : Bool
  coda_open : Bool
  new_load : Bool
  one_load : Bool
  use_clock : Bool
  found_crate : Bool
  vme_server : String
  vme_port : Int
  normslot : Nat → Int
  clkslot : Int
  clkchan : Int
  buffSize : Int
  rawdata : Int → Int
  clockrate : ℚ
  header : Nat
  crate : Int
  evstr_type : Int
  onlmap : List Int
  normmap : List (String × Int)
  calib_u1 : ℚ
  calib_u3 : ℚ
  calib_u10 : ℚ
  calib_d1 : ℚ
  calib_d3 : ℚ
  calib_d10 : ℚ
  off_u1 : ℚ
  off_u3 : ℚ
  off_u10 : ℚ
  off_d1 : ℚ
  off_d3 : ℚ
  off_d10 : ℚ

/-- The constructor `THaScaler(bankgr)` for a non-empty bank group name, with the
buffer size of its CODA file reader. -/
def mk0 (bankgr : String) (buffSize : Int) : THaScaler :=
  { bankgroup := bankgr, database := none, did_init := false, coda_open := false,
    new_load := false, one_load := false, use_clock := true, found_crate := false,
    vme_server := "", vme_port := 0, normslot := fun _ => -1, clkslot := -1,
    clkchan := -1, buffSize := buffSize, rawdata := fun _ => 0, clockrate := 1024,
    header := 0, crate := 0, evstr_type := 0, onlmap := [], normmap := [],
    calib_u1 := 0, calib_u3 := 0, calib_u10 := 0, calib_d1 := 0, calib_d3 := 0,
    calib_d10 := 0, off_u1 := 0, off_u3 := 0, off_u10 := 0, off_d1 := 0,
    off_d3 := 0, off_d10 := 0 }

/-! ## Clear, ClearAll, LoadPrevious -/

/-- Store part of `Clear`: memset of the first `SCAL_NUMBANK*SCAL_NUMCHAN` words. -/
def clearRaw (raw : Int → Int) : Int → Int :=
  fun k => if 0 ≤ k ∧ k < (SCAL_NUMBANK * SCAL_NUMCHAN : Nat) then 0 else raw k

/-- Store part of `ClearAll`: memset of all `2*SCAL_NUMBANK*SCAL_NUMCHAN` words. -/
def clearAllRaw (raw : Int → Int) : Int → Int :=
  fun k => if 0 ≤ k ∧ k < (2 * SCAL_NUMBANK * SCAL_NUMCHAN : Nat) then 0 else raw k

/-- The body of the loop of `LoadPrevious`: `rawdata[i+size] = rawdata[i]`. -/
def copyPrev (r : Int → Int) (i : Nat) : Int → Int :=
  setAt r ((i : Int) + (SCAL_NUMBANK * SCAL_NUMCHAN : Nat)) (r i)

/-- Store part of `LoadPrevious`: the loop over `i < size`. -/
def loadPreviousRaw (raw : Int → Int) : Int → Int :=
  (List.range (SCAL_NUMBANK * SCAL_NUMCHAN)).foldl copyPrev raw

/-- Method `Clear()`. -/
def Clear (s : THaScaler) : THaScaler := { s with rawdata := clearRaw s.rawdata }

/-- Method `ClearAll()`. -/
def ClearAll (s : THaScaler) : THaScaler := { s with rawdata := clearAllRaw s.rawdata }

/-- Method `LoadPrevious()`. -/
def LoadPrevious (s : THaScaler) : THaScaler :=
  { s with rawdata := loadPreviousRaw s.rawdata }

/-! ## ExtractRaw -/

/-- The test of the scan loop: `(w & 0xfff00000) == header && (w & 0x0000ff00) == 0`. -/
def isHeader (header : Nat) (w : Int) : Bool :=
  (u32 w &&& 0xfff00000 == header) && (u32 w &&& 0x0000ff00 == 0)

/-- Decoded slot, `slot = (w & 0xf0000) >> 16`. -/
def slotOf (w : Int) : Nat := (u32 w &&& 0xf0000) >>> 16

/-- Decoded channel count, `numchan = w & 0xff`, and 32 when that is 0. -/
def numchanOf (w : Int) : Nat :=
  if u32 w &&& 0xff = 0 then 32 else u32 w &&& 0xff

/-- The body of the inner loop of `ExtractRaw`: `k = slot*SCAL_NUMCHAN + j-i-1` and the
bounds-checked store `rawdata[k] = data[j]`. -/
def copyWord (data : List Int) (i slot : Nat) (r : Int → Int) (j : Nat) : Int → Int :=
  let k : Int := (slot : Int) * (SCAL_NUMCHAN : Nat) + (j : Int) - (i : Int) - 1
  if 0 ≤ k ∧ k < (SCAL_NUMBANK * SCAL_NUMCHAN : Nat) then setAt r k (rd data j) else r

/-- The inner loop of `ExtractRaw` for a header at index `i`:
`for (j = i+1; j < i+numchan+1; j++)`. -/
def copyBank (data : List Int) (i slot numchan : Nat) (raw : Int → Int) : Int → Int :=
  (List.range' (i + 1) numchan).foldl (copyWord data i slot) raw

/-- One pass of the body of the scan loop at index `i`; the first component is `lfirst`. -/
def scanStep (data : List Int) (st : Bool × THaScaler) (i : Nat) : Bool × THaScaler :=
  if isHeader st.2.header (rd data i) then
    let s1 := if st.1 then Clear (LoadPrevious st.2) else st.2
    (false,
      { s1 with
        rawdata := copyBank data i (slotOf (rd data i)) (numchanOf (rd data i)) s1.rawdata,
        found_crate := true })
  else st

/-- The length `len` that `ExtractRaw` derives: `dlen`, or `data[0] + 1` when `dlen == 0`. -/
def derivedLen (data : List Int) (dlen : Int) : Int :=
  if dlen = 0 then wrap32 (rd data 0 + 1) else dlen

/-- The bound `ndat` of the scan loop: `len < max ? len : max`. -/
def scanLen (s : THaScaler) (data : List Int) (dlen : Int) : Int :=
  if derivedLen data dlen < s.buffSize then derivedLen data dlen else s.buffSize

/-- Method `ExtractRaw(data, dlen)`: the return value and the state afterwards.
`data` is `none` for a null pointer. -/
def ExtractRaw (s : THaScaler) (data : Option (List Int)) (dlen : Int) : Int × THaScaler :=
  let s0 := { s with found_crate := false }
  match data with
  | none => (0, s0)
  | some d =>
    if scanLen s d dlen > 10000 then (0, Clear s0)
    else
      let r := (List.range (scanLen s d dlen).toNat).foldl (scanStep d) (true, s0)
      if r.2.found_crate then (1, { r.2 with new_load := true, one_load := true })
      else (0, r.2)

/-- The current half of the store, entry `k`. -/
def current (s : THaScaler) (k : Nat) : Int := s.rawdata k

/-- The previous half of the store, entry `k`. -/
def previous (s : THaScaler) (k : Nat) : Int :=
  s.rawdata ((k : Int) + (SCAL_NUMBANK * SCAL_NUMCHAN : Nat))

/-! ## InitData -/

/-- A calendar date `Bdate(day, month, year)`. -/
structure Bdate where
  day : Int
  month : Int
  year : Int

/-- Modelled from the spec: `Bdate::operator<` is declared in THaScalerDB.h, which is
not among the sources; a date precedes another in calendar order (year, then month,
then day). -/
def Bdate.before (a b : Bdate) : Bool :=
  decide (a.year < b.year) ||
    (decide (a.year = b.year) &&
      (decide (a.month < b.month) || (decide (a.month = b.month) && decide (a.day < b.day))))

/-- Whether the characters `p` begin the characters `s`. -/
def startsWith : List Char → List Char → Bool
  | _, [] => true
  | [], _ :: _ => false
  | c :: s, d :: p => (c == d) && startsWith s p

/-- Whether the characters `p` occur consecutively somewhere in `s`. -/
def containsChars : List Char → List Char → Bool
  | [], p => p.isEmpty
  | c :: s, p => startsWith (c :: s) p || containsChars s p

/-- Modelled from the spec: `THaScalerDB::FindNoCase` is not among the sources; it is
the case-insensitive substring containment test, here the truth of
`FindNoCase(s, sub) != std::string::npos`. -/
def FindNoCase (s sub : String) : Bool :=
  containsChars (s.toList.map Char.toLower) (sub.toList.map Char.toLower)

/-- A row of the static table `datamap` of `InitData`. -/
structure DataMap where
  bank_name : String
  bank_header : Nat
  bank_cratenum : Int
  evstr_type : Int
  normslot : Int
  bank_clockrate : ℚ
  bank_IP : String
  bank_port : Int
  bank_onlmap : List Int

/-- The rows of `datamap` before the terminating `{ 0 }`. -/
def datamap : List DataMap :=
  [ { bank_name := "Left", bank_header := 0xabc00000, bank_cratenum := 8, evstr_type := 140,
      normslot := 4, bank_clockrate := 1024, bank_IP := "129.57.192.30", bank_port := 5022,
      bank_onlmap := [0,1,2,3,4,5,6,7,8,9,10,11] },
    { bank_name := "Right", bank_header := 0xceb00000, bank_cratenum := 7, evstr_type := 140,
      normslot := 8, bank_clockrate := 1024, bank_IP := "129.57.192.28", bank_port := 5021,
      bank_onlmap := [0,1,2,3,4,5,6,7,8,9,10,11] },
    { bank_name := "dvcs", bank_header := 0xd0c00000, bank_cratenum := 9, evstr_type := 140,
      normslot := 0, bank_clockrate := 105000, bank_IP := "129.57.192.51", bank_port := 5064,
      bank_onlmap := [0,1,2,3,4,5,6,7,8,9,10,11] },
    { bank_name := "N20", bank_header := 0xbba00000, bank_cratenum := 6, evstr_type := 140,
      normslot := 1, bank_clockrate := 2048, bank_IP := "129.57.192.51", bank_port := 5064,
      bank_onlmap := [0,1,2,3,4,5,6,7,8,9,10,11] },
    { bank_name := "evleft", bank_header := 0xabc00000, bank_cratenum := 11, evstr_type := 1,
      normslot := 4, bank_clockrate := 1024, bank_IP := "none", bank_port := 0,
      bank_onlmap := [0,0,0,0,0,0,0,0,0,0,0,0] },
    { bank_name := "evright", bank_header := 0xceb00000, bank_cratenum := 10, evstr_type := 1,
      normslot := 8, bank_clockrate := 1024, bank_IP := "none", bank_port := 0,
      bank_onlmap := [0,0,0,0,0,0,0,0,0,0,0,0] } ]

/-- Assignment `normslot[i] = v`. -/
def setSlot (ns : Nat → Int) (i : Nat) (v : Int) : Nat → Int :=
  fun j => if j = i then v else ns j

/-- The name matching of `InitData`: the bank searched for, before the date swap. -/
def bankOfName (hasDb : Bool) (bankgroup : String) : String :=
  if hasDb then
    let b := "unknown"
    let b := if FindNoCase bankgroup "Left" || bankgroup == "L" then "Left" else b
    let b := if FindNoCase bankgroup "Right" || bankgroup == "R" then "Right" else b
    let b := if FindNoCase bankgroup "dvcs" then "dvcs" else b
    let b := if FindNoCase bankgroup "N20" then "N20" else b
    let b := if FindNoCase bankgroup "evleft" then "evleft" else b
    let b := if FindNoCase bankgroup "evright" then "evright" else b
    b
  else "unknown"

/-- The cutoff `Bdate dswap(15,9,2000)`. -/
def dswap : Bdate := { day := 15, month := 9, year := 2000 }

/-- The detector swap of `InitData` for dates before `dswap`. -/
def swapBank (bank_to_find : String) (date_want : Bdate) : String :=
  if date_want.before dswap then
    let stemp := bank_to_find
    let b := if stemp == "Left" then "Right" else bank_to_find
    let b := if stemp == "Right" then "Left" else b
    b
  else bank_to_find

/-- The body of the loop over `datamap` for one row. -/
def loadRow (bank_to_find : String) (s : THaScaler) (it : DataMap) : THaScaler :=
  if bank_to_find == it.bank_name then
    { s with
      header := it.bank_header
      crate := it.bank_cratenum
      evstr_type := it.evstr_type
      normslot := setSlot s.normslot 0 it.normslot
      clockrate := if s.use_clock then it.bank_clockrate else s.clockrate
      vme_server := it.bank_IP
      vme_port := it.bank_port
      onlmap := s.onlmap ++ (List.range SCAL_NUMBANK).map (fun i => it.bank_onlmap.getD i 0) }
  else s

/-- Method `InitData(bankgroup, date_want)`: the return value and the state afterwards.
The registration `LoadCrateToInt` acts on the database collaborator only. -/
def InitData (s : THaScaler) (bankgroup : String) (date_want : Bdate) : Int × THaScaler :=
  let s1 := { s with crate := -1 }
  let bank_to_find := swapBank (bankOfName s.database.isSome bankgroup) date_want
  let s2 := { s1 with onlmap := [] }
  let s3 := datamap.foldl (loadRow bank_to_find) s2
  let s4 := { s3 with normslot := setSlot s3.normslot 1 (wrap32 (s3.normslot 0 - 1)) }
  let s5 := { s4 with normslot := setSlot s4.normslot 2 (wrap32 (s4.normslot 0 + 1)) }
  (0,
    { s5 with
      calib_u1 := 1345, calib_u3 := 4114, calib_u10 := 12515,
      calib_d1 := 1303, calib_d3 := 4034, calib_d10 := 12728,
      off_u1 := 92.07, off_u3 := 167.06, off_u10 := 102.62,
      off_d1 := 72.19, off_d3 := 81.08, off_d10 := 199.51 })

/-- The descriptor that `InitData` selects: header, crate, stream type, default
normalization slot, clock rate, server, port and online map. -/
def descriptor (s : THaScaler) : Nat × Int × Int × Int × ℚ × String × Int × List Int :=
  (s.header, s.crate, s.evstr_type, s.normslot 0, s.clockrate, s.vme_server, s.vme_port,
    s.onlmap)

/-! ## Counts -/

/-- Method `GetScaler(slot, chan, histor)`. -/
def GetScaler (s : THaScaler) (slot chan histor : Int) : Int :=
  let index := wrap32 ((SCAL_NUMCHAN : Nat) * slot + chan)
  let index := if histor = 1 then wrap32 (index + (SCAL_NUMBANK * SCAL_NUMCHAN : Nat)) else index
  if 0 ≤ index ∧ index < (2 * SCAL_NUMBANK * SCAL_NUMCHAN : Nat) then s.rawdata index else 0

/-- Method `GetSlot(detector, helicity)`. -/
def GetSlot (s : THaScaler) (detector : String) (helicity : Int) : Int :=
  match s.database with
  | none => -1
  | some db => db.GetSlot s.crate detector helicity

/-- Method `GetChan(detector, helicity, chan)`. -/
def GetChan (s : THaScaler) (detector : String) (helicity chan : Int) : Int :=
  match s.database with
  | none => 0
  | some db => db.GetChan s.crate detector helicity chan

/-- Method `GetScaler(det, pm, chan, histor)`. -/
def GetScalerDet (s : THaScaler) (det pm : String) (chan histor : Int) : Int :=
  if !s.did_init || !s.one_load then 0
  else if s.database.isNone then 0
  else
    let detector := if FindNoCase pm "Left" then det ++ "L" else det
    let detector := if FindNoCase pm "Right" then detector ++ "R" else detector
    let slot := GetSlot s detector 0
    if slot = -1 then 0
    else GetScaler s slot (GetChan s detector 0 chan) histor

/-- The index into `normslot` that a helicity selects. -/
def helIndex (helicity : Int) : Nat :=
  let index := 0
  let index := if helicity = -1 then 1 else index
  let index := if helicity = 1 then 2 else index
  index

/-- Method `normmap.find(which)`: the channel of the first entry with that name. -/
def normFind (normmap : List (String × Int)) (which : String) : Option Int :=
  match normmap with
  | [] => none
  | (name, ch) :: rest => if name = which then some ch else normFind rest which

/-- Method `GetNormData(helicity, which, histor)` for a channel name. -/
def GetNormData (s : THaScaler) (helicity : Int) (which : String) (histor : Int) : Int :=
  if !s.did_init || !s.one_load then 0
  else if s.normslot (helIndex helicity) < 0 then 0
  else
    match normFind s.normmap which with
    | none => 0
    | some ch => GetScaler s (s.normslot (helIndex helicity)) ch histor

/-- Method `GetNormData(helicity, chan, histor)` for a channel number. -/
def GetNormDataChan (s : THaScaler) (helicity chan histor : Int) : Int :=
  if !s.did_init || !s.one_load then 0
  else if s.normslot (helIndex helicity) = -1 then 0
  else GetScaler s (s.normslot (helIndex helicity)) chan histor

/-- Method `GetTrig(helicity, trig, histor)`. -/
def GetTrig (s : THaScaler) (helicity trig histor : Int) : Int :=
  GetNormData s helicity ("trigger-" ++ toString trig) histor

/-- Method `GetBcm(helicity, which, histor)`. -/
def GetBcm (s : THaScaler) (helicity : Int) (which : String) (histor : Int) : Int :=
  GetNormData s helicity which histor

/-- Method `GetPulser(helicity, which, histor)`. -/
def GetPulser (s : THaScaler) (helicity : Int) (which : String) (histor : Int) : Int :=
  GetNormData s helicity which histor

/-! ## Setters -/

/-- Method `SetClockLoc(slot, chan)`. -/
def SetClockLoc (s : THaScaler) (slot chan : Int) : THaScaler :=
  { s with
    clkslot := if slot = -1 then GetSlot s "TS-accept" 0 else slot
    clkchan := chan }

/-- Method `SetClockRate(rate)`. -/
def SetClockRate (s : THaScaler) (rate : ℚ) : THaScaler := { s with clockrate := rate }

/-- Method `SetTimeInterval(time)`. -/
def SetTimeInterval (s : THaScaler) (time : ℚ) : THaScaler :=
  if time ≤ 0 then s
  else { s with clockrate := 1 / time, use_clock := false }

/-! ## Rates -/

/-- Method `GetTimeDiff(helicity)`. -/
def GetTimeDiff (s : THaScaler) (helicity : Int) : Option ℚ :=
  if !s.use_clock then
    if s.clockrate ≠ 0 then fdiv 1 s.clockrate else some 0
  else if s.clockrate = 0 then some 0
  else if s.clkslot ≠ -1 ∧ s.clkchan ≠ -1 then
    fdiv (isub (GetScaler s s.clkslot s.clkchan 0) (GetScaler s s.clkslot s.clkchan 1))
      s.clockrate
  else
    fdiv (isub (GetNormData s helicity "clock" 0) (GetNormData s helicity "clock" 1))
      s.clockrate

/-- The shared body of the rate getters: `if (etime > 0) return (cur - prev) / etime;
return 0;`. -/
def rateBody (etime : Option ℚ) (cur prev : Int) : Option ℚ :=
  match etime with
  | none => none
  | some t => if t > 0 then fdiv (isub cur prev) t else some 0

/-- Method `GetScalerRate(slot, chan)`. -/
def GetScalerRate (s : THaScaler) (slot chan : Int) : Option ℚ :=
  rateBody (GetTimeDiff s 0) (GetScaler s slot chan 0) (GetScaler s slot chan 1)

/-- Method `GetScalerRate(detector, PMT, chan)`. -/
def GetScalerRateDet (s : THaScaler) (detector pmt : String) (chan : Int) : Option ℚ :=
  rateBody (GetTimeDiff s 0) (GetScalerDet s detector pmt chan 0)
    (GetScalerDet s detector pmt chan 1)

/-- Method `GetTrigRate(helicity, trigger)`. -/
def GetTrigRate (s : THaScaler) (helicity trigger : Int) : Option ℚ :=
  rateBody (GetTimeDiff s helicity) (GetTrig s helicity trigger 0) (GetTrig s helicity trigger 1)

/-- Method `GetBcmRate(helicity, which)`. -/
def GetBcmRate (s : THaScaler) (helicity : Int) (which : String) : Option ℚ :=
  rateBody (GetTimeDiff s helicity) (GetBcm s helicity which 0) (GetBcm s helicity which 1)

/-- Method `GetPulserRate(helicity, which)`. -/
def GetPulserRate (s : THaScaler) (helicity : Int) (which : String) : Option ℚ :=
  rateBody (GetTimeDiff s helicity) (GetPulser s helicity which 0)
    (GetPulser s helicity which 1)

/-- Method `GetNormRate(helicity, which)` for a channel name. -/
def GetNormRate (s : THaScaler) (helicity : Int) (which : String) : Option ℚ :=
  rateBody (GetTimeDiff s helicity) (GetNormData s helicity which 0)
    (GetNormData s helicity which 1)

/-- Method `GetNormRate(helicity, chan)` for a channel number. -/
def GetNormRateChan (s : THaScaler) (helicity chan : Int) : Option ℚ :=
  rateBody (GetTimeDiff s helicity) (GetNormDataChan s helicity chan 0)
    (GetNormDataChan s helicity chan 1)


/-! ## Description of a scan -/

/-- Whether one of the first `n` words of `data` matches the header pattern. -/
def anyHeader (hdr : Nat) (data : List Int) (n : Nat) : Bool :=
  (List.range n).any (fun i => isHeader hdr (rd data i))

/-- Whether the bank announced by the word at index `i` covers store index `k`
below the end of the current half (32 is `SCAL_NUMCHAN`, 384 is
`SCAL_NUMBANK*SCAL_NUMCHAN`). -/
def hits (data : List Int) (i : Nat) (k : Int) : Bool :=
  decide ((slotOf (rd data i) : Int) * 32 ≤ k ∧
    k < (slotOf (rd data i) : Int) * 32 + (numchanOf (rd data i) : Nat) ∧ k < 384)

/-- The channel word that the bank at index `i` holds for store index `k`. -/
def bankWord (data : List Int) (i : Nat) (k : Int) : Int :=
  rd data (i + 1 + (k - (slotOf (rd data i) : Int) * 32).toNat)

/-- The last value written to store index `k` by the headers among the first `n`
words, if any. -/
def lastWrite (hdr : Nat) (data : List Int) : Nat → Int → Option Int
  | 0, _ => none
  | n + 1, k =>
    if isHeader hdr (rd data n) && hits data n k then some (bankWord data n k)
    else lastWrite hdr data n k

/-- The store that a scan is to leave behind, index by index.  Over the length ceiling
the current half is zero and the rest untouched; with no matching word nothing changes;
otherwise each entry of the current half holds the last in-range write to it, or 0,
the previous half holds the old current half, and memory outside the array is
untouched. -/
def storeAfter (s : THaScaler) (data : List Int) (dlen : Int) (k : Int) : Int :=
  if scanLen s data dlen > 10000 then
    if 0 ≤ k ∧ k < 384 then 0 else s.rawdata k
  else if anyHeader s.header data (scanLen s data dlen).toNat = false then s.rawdata k
  else if 0 ≤ k ∧ k < 384 then (lastWrite s.header data (scanLen s data dlen).toNat k).getD 0
  else if 384 ≤ k ∧ k < 768 then s.rawdata (k - 384)
  else s.rawdata k

/-- The scan body on the store alone. -/
def bankStep (hdr : Nat) (data : List Int) (raw : Int → Int) (i : Nat) : Int → Int :=
  if isHeader hdr (rd data i) then
    copyBank data i (slotOf (rd data i)) (numchanOf (rd data i)) raw
  else raw

/-- The scan of the first `n` words on the store alone. -/
def decode (hdr : Nat) (data : List Int) (n : Nat) (raw : Int → Int) : Int → Int :=
  (List.range n).foldl (bankStep hdr data) raw

/-- The count of the clock channel that `GetTimeDiff` reads: the channel set by
`SetClockLoc` when both `clkslot` and `clkchan` are set, else the normalization
channel named "clock". -/
def clockCount (s : THaScaler) (helicity histor : Int) : Int :=
  if s.clkslot ≠ -1 ∧ s.clkchan ≠ -1 then GetScaler s s.clkslot s.clkchan histor
  else GetNormData s helicity "clock" histor

/-- An initialized and loaded object in clock mode (rate 1024) with normalization slots
4, 3, 5, the names "clock" on channel 7 and "bcm_u1" on channel 3, clock counts `clkCur`
(current) and `clkPrev` (previous), and "bcm_u1" counts 500 (current) and 200
(previous). -/
def loadedState (clkCur clkPrev : Int) : THaScaler :=
  { mk0 "Left" 100005 with
    did_init := true, one_load := true, header := 0xabc00000, crate := 8,
    normslot := fun i => if i = 0 then 4 else if i = 1 then 3 else 5,
    normmap := [("clock", 7), ("bcm_u1", 3)],
    rawdata := fun k =>
      if k = 135 then clkCur else if k = 519 then clkPrev
      else if k = 131 then 500 else if k = 515 then 200 else 0 }

/-! ## Init -/

/-- Modelled from the spec: `SCAL_ERROR` is defined in THaScaler.h, which is not among
the sources; it is the failure code, distinct from the success code 0. -/
def SCAL_ERROR : Int := -1

/-- Method `CheckInit()`. -/
def CheckInit (s : THaScaler) : Int := if !s.did_init then SCAL_ERROR else 0

/-- Method `SetupNormMap()`. -/
def SetupNormMap (s : THaScaler) : THaScaler :=
  match s.database with
  | none => s
  | some db =>
    let s1 := { s with normslot := setSlot s.normslot 0 (GetSlot s "TS-accept" 0) }
    let s2 := { s1 with normslot := setSlot s1.normslot 1 (GetSlot s1 "TS-accept" (-1)) }
    let s3 := { s2 with normslot := setSlot s2.normslot 2 (GetSlot s2 "TS-accept" 1) }
    let s4 := { s3 with clkslot := GetSlot s3 "clock" 0 }
    let s5 := { s4 with clkchan := GetChan s4 "clock" 0 0 }
    { s5 with
      normmap := (List.range SCAL_NUMCHAN).foldl
        (fun m ichan =>
          m ++ ((db.GetShortNames s5.crate (s5.normslot 0) ichan).filter
            (fun name => name != "none")).map (fun name => (name, (ichan : Int))))
        s5.normmap }

/-- Digits part of the C library function `atoi`. -/
def atoiDigits : List Char → Int → Int
  | [], acc => acc
  | c :: rest, acc =>
    if c.isDigit then atoiDigits rest (acc * 10 + ((c.toNat : Int) - 48)) else acc

/-- The C library function `atoi`: leading white space, an optional sign, decimal digits. -/
def atoi (cs : List Char) : Int :=
  match cs.dropWhile (fun c => c.toNat = 32 || (9 ≤ c.toNat && c.toNat ≤ 13)) with
  | [] => 0
  | c :: rest =>
    if c = '-' then wrap32 (- atoiDigits rest 0)
    else if c = '+' then wrap32 (atoiDigits rest 0)
    else wrap32 (atoiDigits (c :: rest) 0)

/-- Position of the first `c` in a string, counted from `i`, as `find_first_of` stored in an
`int` (−1 when absent). -/
def findFirst (c : Char) : List Char → Nat → Int
  | [], _ => -1
  | d :: rest, i => if d = c then (i : Int) else findFirst c rest (i + 1)

/-- Position of the last `c` in a string, counted from `i`, as `find_last_of` stored in an
`int` (`last` when absent). -/
def findLast (c : Char) : List Char → Nat → Int → Int
  | [], _, last => last
  | d :: rest, i, last => findLast c rest (i + 1) (if d = c then (i : Int) else last)

/-- The date parsing of `Init(thetime)`: the date wanted, or `none` where `Init` returns
`SCAL_ERROR`; `today` is the date of the system clock, used for "now". -/
def parseDate (thetime : String) (today : Bdate) : Option Bdate :=
  if thetime = "now" then some today
  else
    let cs := thetime.toList
    let pos1 := findFirst '-' cs 0
    let pos2 := findLast '-' cs 0 (-1)
    if pos1 > 0 ∧ pos2 > pos1 then
      some
        { day := atoi (cs.take pos1.toNat)
          month := atoi ((cs.drop (pos1 + 1).toNat).take (pos2 - pos1 - 1).toNat)
          year := atoi (cs.drop (pos2 + 1).toNat) }
    else none

/-- Method `Init(thetime)`: the return value and the state afterwards.  `db` is the
database object created by `new THaScalerDB()` and `extract_ok` the result of its
`extract_db(date_want)`. -/
def Init (s : THaScaler) (thetime : String) (today : Bdate) (db : THaScalerDB)
    (extract_ok : Bool) : Int × THaScaler :=
  match parseDate thetime today with
  | none => (SCAL_ERROR, s)
  | some date_want =>
    let s1 := { s with database := some db }
    let r := InitData s1 s1.bankgroup date_want
    if r.1 = SCAL_ERROR then (SCAL_ERROR, r.2)
    else if extract_ok = false then (-1, { r.2 with database := none })
    else (0, { SetupNormMap r.2 with did_init := true })

/-- A bank-group name that matches none of the aliases tested by `InitData`. -/
def unknownBank (bankgroup : String) : Prop :=
  FindNoCase bankgroup "Left" = false ∧ bankgroup ≠ "L" ∧
    FindNoCase bankgroup "Right" = false ∧ bankgroup ≠ "R" ∧
    FindNoCase bankgroup "dvcs" = false ∧ FindNoCase bankgroup "N20" = false ∧
    FindNoCase bankgroup "evleft" = false ∧ FindNoCase bankgroup "evright" = false

/-- A database object that knows no slot and no name. -/
def emptyDB : THaScalerDB :=
  { GetSlot := fun _ _ _ => -1, GetChan := fun _ _ _ _ => 0, GetShortNames := fun _ _ _ => [] }

/-! ## LoadDataCodaFile -/

/-- A member-function body: a computation that may read and assign the data members of
the object it is called on. -/
abbrev Method (α : Type) : Type := StateM THaScaler α

/-- Method body of `GetScaler(slot, chan, histor)`: `index` is a local; the one member
access is the read `rawdata[index]`. -/
def GetScalerM (slot chan histor : Int) : Method Int := do
  let index := wrap32 ((SCAL_NUMCHAN : Nat) * slot + chan)
  let index := if histor = 1 then wrap32 (index + (SCAL_NUMBANK * SCAL_NUMCHAN : Nat)) else index
  if 0 ≤ index ∧ index < (2 * SCAL_NUMBANK * SCAL_NUMCHAN : Nat) then
    return (← get).rawdata index
  else return 0

/-- Method body of `GetSlot(detector, helicity)`: reads `database` and `crate`. -/
def GetSlotM (detector : String) (helicity : Int) : Method Int := do
  match (← get).database with
  | none => return -1
  | some db => return db.GetSlot (← get).crate detector helicity

/-- Method body of `GetChan(detector, helicity, chan)`: reads `database` and `crate`. -/
def GetChanM (detector : String) (helicity chan : Int) : Method Int := do
  match (← get).database with
  | none => return 0
  | some db => return db.GetChan (← get).crate detector helicity chan

/-- Method body of `GetScaler(det, pm, chan, histor)`: `detector` and `PMT` are local
strings; the calls of `GetSlot`, `GetChan` and `GetScaler` run in that order on the
object. -/
def GetScalerDetM (det pm : String) (chan histor : Int) : Method Int := do
  if !(← get).did_init || !(← get).one_load then return 0
  else if (← get).database.isNone then return 0
  else
    let detector := if FindNoCase pm "Left" then det ++ "L" else det
    let detector := if FindNoCase pm "Right" then detector ++ "R" else detector
    let slot ← GetSlotM detector 0
    if slot = -1 then return 0
    else
      let ch ← GetChanM detector 0 chan
      GetScalerM slot ch histor

/-- Method body of `GetNormData(helicity, which, histor)`: `index` and the iterator `pm`
are locals; `normmap.find` looks the name up without inserting. -/
def GetNormDataM (helicity : Int) (which : String) (histor : Int) : Method Int := do
  if !(← get).did_init || !(← get).one_load then return 0
  else
    let index := helIndex helicity
    if (← get).normslot index < 0 then return 0
    else
      match normFind (← get).normmap which with
      | none => return 0
      | some ch => GetScalerM ((← get).normslot index) ch histor

/-- Method body of `GetNormData(helicity, chan, histor)` for a channel number. -/
def GetNormDataChanM (helicity chan histor : Int) : Method Int := do
  if !(← get).did_init || !(← get).one_load then return 0
  else
    let index := helIndex helicity
    if (← get).normslot index = -1 then return 0
    else GetScalerM ((← get).normslot index) chan histor

/-- Method body of `GetTrig(helicity, trig, histor)`: the name is printed into the local
buffer `ctrig`. -/
def GetTrigM (helicity trig histor : Int) : Method Int := do
  let ctrig := "trigger-" ++ toString trig
  GetNormDataM helicity ctrig histor

/-- Method body of `GetBcm(helicity, which, histor)`. -/
def GetBcmM (helicity : Int) (which : String) (histor : Int) : Method Int :=
  GetNormDataM helicity which histor

/-- Method body of `GetPulser(helicity, which, histor)`. -/
def GetPulserM (helicity : Int) (which : String) (histor : Int) : Method Int :=
  GetNormDataM helicity which histor

/-- Method body of `GetTimeDiff(helicity)`: `etime` is a local; `use_clock`, `clockrate`,
`clkslot` and `clkchan` are read where the source reads them, the divisor after the two
counts. -/
def GetTimeDiffM (helicity : Int) : Method (Option ℚ) := do
  if !(← get).use_clock then
    if (← get).clockrate ≠ 0 then return fdiv 1 (← get).clockrate else return some 0
  else if (← get).clockrate = 0 then return some 0
  else if (← get).clkslot ≠ -1 ∧ (← get).clkchan ≠ -1 then
    let cur ← GetScalerM (← get).clkslot (← get).clkchan 0
    let prev ← GetScalerM (← get).clkslot (← get).clkchan 1
    return fdiv (isub cur prev) (← get).clockrate
  else
    let cur ← GetNormDataM helicity "clock" 0
    let prev ← GetNormDataM helicity "clock" 1
    return fdiv (isub cur prev) (← get).clockrate

/-- The shared shape of the rate getter bodies: `etime = GetTimeDiff(..); if (etime > 0)
{ rate = (cur - prev) / etime; return rate; } return 0;` with `etime` and `rate` locals
and the two counts read by calls on the object, only when the interval is positive. -/
def rateBodyM (etime : Method (Option ℚ)) (cur prev : Method Int) : Method (Option ℚ) := do
  match (← etime) with
  | none => return none
  | some t =>
    if t > 0 then
      let a ← cur
      let b ← prev
      return fdiv (isub a b) t
    else return some 0

/-- Method body of `GetScalerRate(slot, chan)`. -/
def GetScalerRateM (slot chan : Int) : Method (Option ℚ) :=
  rateBodyM (GetTimeDiffM 0) (GetScalerM slot chan 0) (GetScalerM slot chan 1)

/-- Method body of `GetScalerRate(detector, PMT, chan)`. -/
def GetScalerRateDetM (detector pmt : String) (chan : Int) : Method (Option ℚ) :=
  rateBodyM (GetTimeDiffM 0) (GetScalerDetM detector pmt chan 0)
    (GetScalerDetM detector pmt chan 1)

/-- Method body of `GetTrigRate(helicity, trigger)`. -/
def GetTrigRateM (helicity trigger : Int) : Method (Option ℚ) :=
  rateBodyM (GetTimeDiffM helicity) (GetTrigM helicity trigger 0) (GetTrigM helicity trigger 1)

/-- Method body of `GetBcmRate(helicity, which)`. -/
def GetBcmRateM (helicity : Int) (which : String) : Method (Option ℚ) :=
  rateBodyM (GetTimeDiffM helicity) (GetBcmM helicity which 0) (GetBcmM helicity which 1)

/-- Method body of `GetPulserRate(helicity, which)`. -/
def GetPulserRateM (helicity : Int) (which : String) : Method (Option ℚ) :=
  rateBodyM (GetTimeDiffM helicity) (GetPulserM helicity which 0) (GetPulserM helicity which 1)

/-- Method body of `GetNormRate(helicity, which)` for a channel name. -/
def GetNormRateM (helicity : Int) (which : String) : Method (Option ℚ) :=
  rateBodyM (GetTimeDiffM helicity) (GetNormDataM helicity which 0)
    (GetNormDataM helicity which 1)

/-- Method body of `GetNormRate(helicity, chan)` for a channel number. -/
def GetNormRateChanM (helicity chan : Int) : Method (Option ℚ) :=
  rateBodyM (GetTimeDiffM helicity) (GetNormDataChanM helicity chan 0)
    (GetNormDataChanM helicity chan 1)

/-- Method body of a call `ExtractRaw(data, dlen)` whose return value is dropped: the
object afterwards is the one that `ExtractRaw` leaves behind. -/
def ExtractRawM (data : Option (List Int)) (dlen : Int) : Method Unit :=
  modify (fun s => (ExtractRaw s data dlen).2)

/-- A call of one of the count and rate getters, with its arguments. -/
inductive Call
  | getScaler (slot chan histor : Int)
  | getScalerDet (det pm : String) (chan histor : Int)
  | getNormData (helicity : Int) (which : String) (histor : Int)
  | getNormDataChan (helicity chan histor : Int)
  | getTrig (helicity trig histor : Int)
  | getBcm (helicity : Int) (which : String) (histor : Int)
  | getPulser (helicity : Int) (which : String) (histor : Int)
  | getTimeDiff (helicity : Int)
  | getScalerRate (slot chan : Int)
  | getScalerRateDet (detector pmt : String) (chan : Int)
  | getTrigRate (helicity trigger : Int)
  | getBcmRate (helicity : Int) (which : String)
  | getPulserRate (helicity : Int) (which : String)
  | getNormRate (helicity : Int) (which : String)
  | getNormRateChan (helicity chan : Int)

/-- The member-function body that a call runs, its value dropped. -/
def runCall : Call → Method Unit
  | .getScaler slot chan histor => do let _ ← GetScalerM slot chan histor
  | .getScalerDet det pm chan histor => do let _ ← GetScalerDetM det pm chan histor
  | .getNormData helicity which histor => do let _ ← GetNormDataM helicity which histor
  | .getNormDataChan helicity chan histor => do let _ ← GetNormDataChanM helicity chan histor
  | .getTrig helicity trig histor => do let _ ← GetTrigM helicity trig histor
  | .getBcm helicity which histor => do let _ ← GetBcmM helicity which histor
  | .getPulser helicity which histor => do let _ ← GetPulserM helicity which histor
  | .getTimeDiff helicity => do let _ ← GetTimeDiffM helicity
  | .getScalerRate slot chan => do let _ ← GetScalerRateM slot chan
  | .getScalerRateDet detector pmt chan => do let _ ← GetScalerRateDetM detector pmt chan
  | .getTrigRate helicity trigger => do let _ ← GetTrigRateM helicity trigger
  | .getBcmRate helicity which => do let _ ← GetBcmRateM helicity which
  | .getPulserRate helicity which => do let _ ← GetPulserRateM helicity which
  | .getNormRate helicity which => do let _ ← GetNormRateM helicity which
  | .getNormRateChan helicity chan => do let _ ← GetNormRateChanM helicity chan

/-- A sequence of getter calls, one after the other on the same object. -/
def callAll : List Call → Method Unit
  | [] => pure ()
  | c :: rest => do
    runCall c
    callAll rest

/-- A call of `m`, then the calls `between`, then `m` again with the same arguments: the
two values that `m` returned. -/
def again {α β : Type} (m : Method α) (between : Method β) : Method (α × α) := do
  let first ← m
  let _ ← between
  let second ← m
  return (first, second)

/-! ## The FADC test program: process -/

/-- The event type, crate, slot and channel that tstfadcblk_main.C is compiled for. -/
def MYTYPE : Int := 2

/-- The crate `MYCRATE`. -/
def MYCRATE : Int := 31

/-- The slot `MYSLOT`. -/
def MYSLOT : Int := 6

/-- The channel `MYCHAN`. -/
def MYCHAN : Int := 10

/-- The kinds of module data that `process` asks for. -/
inductive EModuleType
  | kSampleADC
  | kPulseIntegral

/-- The collaborator `Decoder::Module`, as far as `process` calls it: `GetMode()`,
`GetNumEvents(type, chan)` and `GetData(type, chan, i)`. -/
structure Module where
  GetMode : Int
  GetNumEvents : EModuleType → Int → Int
  GetData : EModuleType → Int → Int → Int

/-- The collaborator `THaEvData`, as far as `process` calls it: `GetEvType()`,
`GetModule(crate, slot)` (`none` for a null pointer), `GetNumEvents(type, crate, slot,
chan)` and `GetData(type, crate, slot, chan, i)`. -/
structure THaEvData where
  GetEvType : Int
  GetModule : Int → Int → Option Module
  GetNumEvents : EModuleType → Int → Int → Int → Int
  GetData : EModuleType → Int → Int → Int → Int → Int

/-- A loop `for (i = 0; i < n; i++) rdata = get(i)`: the samples read, each with its kind
and index. -/
def readLoop (kind : EModuleType) (n : Int) (get : Int → Int) :
    List (EModuleType × Int × Int) :=
  (List.range n.toNat).map (fun i => (kind, (i : Int), get i))

/-- The function `process(trignum, evdata, debugfile)`: the samples it reads, in order.
Each sample is then printed and histogrammed in the same way on both paths; the
histograms and the debug file are left out. -/
def process (use_module : Int) (evdata : THaEvData) : List (EModuleType × Int × Int) :=
  if evdata.GetEvType ≠ MYTYPE then []
  else if use_module ≠ 0 then
    match evdata.GetModule MYCRATE MYSLOT with
    | none => []
    | some fadc =>
      (if fadc.GetMode = 1 ∨ fadc.GetMode = 8 then
          readLoop .kSampleADC (fadc.GetNumEvents .kSampleADC MYCHAN)
            (fadc.GetData .kSampleADC MYCHAN)
        else []) ++
        (if fadc.GetMode = 7 then
          readLoop .kPulseIntegral (fadc.GetNumEvents .kPulseIntegral MYCHAN)
            (fadc.GetData .kPulseIntegral MYCHAN)
        else [])
  else
    readLoop .kSampleADC (evdata.GetNumEvents .kSampleADC MYCRATE MYSLOT MYCHAN)
        (evdata.GetData .kSampleADC MYCRATE MYSLOT MYCHAN) ++
      readLoop .kPulseIntegral (evdata.GetNumEvents .kPulseIntegral MYCRATE MYSLOT MYCHAN)
        (evdata.GetData .kPulseIntegral MYCRATE MYSLOT MYCHAN)

/-- The generic address-based queries of an event answer for (crate, slot, channel) what
the module at (crate, slot) answers for that channel. -/
def genericAgrees (evdata : THaEvData) (fadc : Module) : Prop :=
  evdata.GetModule MYCRATE MYSLOT = some fadc ∧
    ∀ kind, evdata.GetNumEvents kind MYCRATE MYSLOT MYCHAN = fadc.GetNumEvents kind MYCHAN ∧
      ∀ i, evdata.GetData kind MYCRATE MYSLOT MYCHAN i = fadc.GetData kind MYCHAN i

/-- An event of type `MYTYPE` whose generic queries are answered by the module `fadc`. -/
def eventOf (fadc : Module) : THaEvData :=
  { GetEvType := MYTYPE
    GetModule := fun _ _ => some fadc
    GetNumEvents := fun kind _ _ chan => fadc.GetNumEvents kind chan
    GetData := fun kind _ _ chan i => fadc.GetData kind chan i }

/-- A module in mode `mode` holding `nsamp` samples `100 + i` and `npulse` pulse
integrals `5000 + i` on every channel. -/
def fadcOf (mode nsamp npulse : Int) : Module :=
  { GetMode := mode
    GetNumEvents := fun kind _ =>
      match kind with
      | .kSampleADC => nsamp
      | .kPulseIntegral => npulse
    GetData := fun kind _ i =>
      match kind with
      | .kSampleADC => 100 + i
      | .kPulseIntegral => 5000 + i }


/-! ## header_str_to_base16 -/

/-- The table `chex` of `header_str_to_base16`. -/
def chex : List Char := "0123456789abcdef".toList

/-- The map `strmap`, filled by inserting `(chex[i], i)` for `i < 16`. -/
def strmap : List (Char × Nat) := (List.range 16).map (fun i => (chex.getD i '0', i))

/-- Lookup of a character in a `map<char,int>`. -/
def charFind : List (Char × Nat) → Char → Option Nat
  | [], _ => none
  | (k, v) :: rest, c => if k = c then some v else charFind rest c

/-- The static `linesize`. -/
def linesize : Nat := 12

/-- The first loop of `header_str_to_base16`: the digits pushed to `numarray`, with the
`break` once its size exceeds `linesize-1`. -/
def collectDigits : List Char → List Nat → List Nat
  | [], numarray => numarray
  | p :: rest, numarray =>
    if (match charFind strmap p with
        | some d => numarray ++ [d]
        | none => numarray).length > linesize - 1 then
      match charFind strmap p with
      | some d => numarray ++ [d]
      | none => numarray
    else
      collectDigits rest
        (match charFind strmap p with
          | some d => numarray ++ [d]
          | none => numarray)

/-- The body of the second loop: `result += (*p) * power; power *= 16;` on `UInt_t`. -/
def sumStep (st : Nat × Nat) (p : Nat) : Nat × Nat :=
  ((st.1 + p * st.2 % 4294967296) % 4294967296, st.2 * 16 % 4294967296)

/-- Method `header_str_to_base16(hdr)`. -/
def header_str_to_base16 (hdr : String) : Nat :=
  ((collectDigits hdr.toList []).reverse.foldl sumStep (0, 1)).1

/-- The value of a character as a hexadecimal digit: 0-9 and a-f count, nothing else. -/
def hexDigitValue (c : Char) : Option Nat :=
  if 48 ≤ c.toNat ∧ c.toNat ≤ 57 then some (c.toNat - 48)
  else if 97 ≤ c.toNat ∧ c.toNat ≤ 102 then some (c.toNat - 87)
  else none

/-- The base-16 value of a sequence of digits, most significant first. -/
def hexValue (ds : List Nat) : Nat := ds.foldl (fun v d => 16 * v + d) 0

/-- The 8-digit lowercase hexadecimal rendering of a 32-bit word. -/
def hex8 (w : Nat) : List Char :=
  [chex.getD (w / 268435456 % 16) '0', chex.getD (w / 16777216 % 16) '0',
    chex.getD (w / 1048576 % 16) '0', chex.getD (w / 65536 % 16) '0',
    chex.getD (w / 4096 % 16) '0', chex.getD (w / 256 % 16) '0',
    chex.getD (w / 16 % 16) '0', chex.getD (w % 16) '0']

/-! ## Buffer indices read by ExtractRaw -/

/-- The indices `j` at which the inner loop of `ExtractRaw` reads `data[j]` for a header at
index `i`: the read sits behind the bounds check on the store index `k`. -/
def bankReads (data : List Int) (i : Nat) : List Nat :=
  (List.range' (i + 1) (numchanOf (rd data i))).filter
    (fun j =>
      decide (0 ≤ (slotOf (rd data i) : Int) * (SCAL_NUMCHAN : Nat) + (j : Int) - (i : Int) - 1 ∧
        (slotOf (rd data i) : Int) * (SCAL_NUMCHAN : Nat) + (j : Int) - (i : Int) - 1 <
          (SCAL_NUMBANK * SCAL_NUMCHAN : Nat)))

/-- The indices read by the scan loop over the first `ndat` words: each `i`, and for a
header the indices read by its inner loop. -/
def scanReads (hdr : Nat) (data : List Int) (ndat : Nat) : List Nat :=
  (List.range ndat).foldl
    (fun acc i => acc ++ (i :: (if isHeader hdr (rd data i) then bankReads data i else [])))
    []

/-- The indices of `data` that `ExtractRaw(data, dlen)` reads, in order: `data[0]` for a
zero `dlen`, then those of the scan loop unless the length is over the ceiling. -/
def ExtractRawReads (s : THaScaler) (data : List Int) (dlen : Int) : List Nat :=
  (if dlen = 0 then [0] else []) ++
    (if scanLen s data dlen > 10000 then []
      else scanReads s.header data (scanLen s data dlen).toNat)
/-! ## LoadDataOnline -/

/-- The number of 16-channel blocks in a server reply, `MAXBLK`. -/
def MAXBLK : Nat := 20

/-- The size of the message field of a server reply, `MSGSIZE`. -/
def MSGSIZE : Nat := 50

/-- The outcome of the exchange with the VME server: a failure to open the socket, to
connect or to write the request, or the reply struct as read, with `ibuf` already
converted by `ntohl`. -/
inductive Transport
  | noSocket
  | noConnect
  | noWrite
  | reply (message : List Char) (ibuf : List Int)

/-- The channel count that a message character stands for: `nchan = 0; if (c == '0')
nchan = 16; if (c == '1') nchan = 32;`. -/
def nchanOfChar (c : Char) : Nat :=
  let nchan := 0
  let nchan := if c = '0' then 16 else nchan
  let nchan := if c = '1' then 32 else nchan
  nchan

/-- The body of the channel loop of `LoadDataOnline`: `i = jslot*SCAL_NUMCHAN + k` and the
guarded store `rawdata[i] = vmeReply.ibuf[ntot++]`; the state is `rawdata` and `ntot`. -/
def unpackWord (ibuf : List Int) (jslot : Int) (st : (Int → Int) × Nat) (k : Nat) :
    (Int → Int) × Nat :=
  if jslot * (SCAL_NUMCHAN : Nat) + (k : Int) < (SCAL_NUMBANK * SCAL_NUMCHAN : Nat) ∧
      st.2 < 16 * MAXBLK then
    (setAt st.1 (jslot * (SCAL_NUMCHAN : Nat) + (k : Int)) (rd ibuf st.2), st.2 + 1)
  else st

/-- The slot loop of `LoadDataOnline` from position `slot`, for `fuel` more positions: the
first component tells whether the loop returned `SCAL_ERROR` for a position outside the
message, the second is `rawdata` and `ntot` at the end.  A character other than '0' and
'1' ends the loop. -/
def unpackSlots (message : List Char) (onlmap : List Int) (ibuf : List Int) :
    Nat → Nat → (Int → Int) × Nat → Bool × ((Int → Int) × Nat)
  | 0, _, st => (false, st)
  | fuel + 1, slot, st =>
    if slot ≥ MSGSIZE then (true, st)
    else if nchanOfChar (message.getD slot (Char.ofNat 0)) = 0 then (false, st)
    else
      unpackSlots message onlmap ibuf fuel (slot + 1)
        ((List.range (nchanOfChar (message.getD slot (Char.ofNat 0)))).foldl
          (unpackWord ibuf (onlmap.getD slot 0)) st)

/-- Method `LoadDataOnline(server, port)`: the return value and the state afterwards, for
an outcome of the exchange with the server. -/
def LoadDataOnline (s : THaScaler) (t : Transport) : Int × THaScaler :=
  if CheckInit { s with new_load := false } = SCAL_ERROR then
    (SCAL_ERROR, { s with new_load := false })
  else
    match t with
    | .noSocket => (SCAL_ERROR, { s with new_load := false })
    | .noConnect => (SCAL_ERROR, { s with new_load := false })
    | .noWrite => (SCAL_ERROR, { s with new_load := false })
    | .reply message ibuf =>
      if (unpackSlots message s.onlmap ibuf SCAL_NUMBANK 0
          (clearRaw (loadPreviousRaw s.rawdata), 0)).1 then
        (SCAL_ERROR,
          { s with
            new_load := false
            rawdata := (unpackSlots message s.onlmap ibuf SCAL_NUMBANK 0
              (clearRaw (loadPreviousRaw s.rawdata), 0)).2.1 })
      else
        (0,
          { s with
            rawdata := (unpackSlots message s.onlmap ibuf SCAL_NUMBANK 0
              (clearRaw (loadPreviousRaw s.rawdata), 0)).2.1
            new_load := true
            one_load := true })

/-- The channel count of message position `p`. -/
def nch (message : List Char) (p : Nat) : Nat :=
  nchanOfChar (message.getD p (Char.ofNat 0))

/-- The number of reply words belonging to the message positions before `p`. -/
def wordsBefore (message : List Char) : Nat → Nat
  | 0 => 0
  | p + 1 => wordsBefore message p + nch message p

/-- An initialized and loaded object with the online map of the "Left" bank. -/
def onlineState : THaScaler :=
  { loadedState 2048 1024 with onlmap := [0, 1, 2, 3, 4, 5, 6, 7, 8, 9, 10, 11] }


/-! ## Theorems -/

/-! ## Bit fields as arithmetic -/

theorem land_shiftLeft_mask (w M m : Nat) : w &&& (M <<< m) = ((w >>> m) &&& M) <<< m := by
  apply Nat.eq_of_testBit_eq
  intro i
  simp only [Nat.testBit_and, Nat.testBit_shiftLeft, Nat.testBit_shiftRight]
  by_cases h : i ≥ m
  · have e : m + (i - m) = i := by omega
    simp [h, e]
  · simp [h]

theorem land_field (w n m : Nat) :
    w &&& ((2 ^ n - 1) <<< m) = (w / 2 ^ m % 2 ^ n) * 2 ^ m := by
  rw [land_shiftLeft_mask, Nat.and_pow_two_sub_one_eq_mod, Nat.shiftRight_eq_div_pow,
    Nat.shiftLeft_eq]

theorem land_fff00000 (w : Nat) : w &&& 0xfff00000 = (w / 1048576 % 4096) * 1048576 := by
  have h := land_field w 12 20
  norm_num at h
  exact h

theorem land_ff00 (w : Nat) : w &&& 0x0000ff00 = (w / 256 % 256) * 256 := by
  have h := land_field w 8 8
  norm_num at h
  exact h

theorem land_f0000 (w : Nat) : w &&& 0xf0000 = (w / 65536 % 16) * 65536 := by
  have h := land_field w 4 16
  norm_num at h
  exact h

theorem land_ff (w : Nat) : w &&& 0xff = w % 256 := by
  have h := Nat.and_pow_two_sub_one_eq_mod w 8
  norm_num at h
  exact h

theorem slotOf_eq (w : Int) : slotOf w = u32 w / 65536 % 16 := by
  unfold slotOf
  rw [land_f0000, Nat.shiftRight_eq_div_pow]
  norm_num

theorem numchanOf_eq (w : Int) :
    numchanOf w = if u32 w % 256 = 0 then 32 else u32 w % 256 := by
  unfold numchanOf
  rw [land_ff]

theorem isHeader_iff (hdr : Nat) (w : Int) :
    isHeader hdr w = true ↔
      (u32 w / 1048576 % 4096) * 1048576 = hdr ∧ u32 w / 256 % 256 = 0 := by
  unfold isHeader
  rw [land_fff00000, land_ff00]
  simp

theorem header_word_eq (H s c : Nat) (hH : H % 1048576 = 0) (hs : s < 16) (hc : c < 256) :
    H ||| (s <<< 16) ||| c = H + s * 65536 + c := by
  obtain ⟨h, rfl⟩ : ∃ h, H = 2 ^ 20 * h := ⟨H / 1048576, by norm_num; omega⟩
  rw [Nat.shiftLeft_eq]
  have e1 : 2 ^ 20 * h ||| s * 2 ^ 16 = 2 ^ 20 * h + s * 2 ^ 16 :=
    (Nat.mul_add_lt_is_or (by norm_num; omega) h).symm
  rw [e1]
  have e2 : 2 ^ 20 * h + s * 2 ^ 16 = 2 ^ 16 * (16 * h + s) := by norm_num; omega
  rw [e2]
  have e3 := (Nat.mul_add_lt_is_or (show c < 2 ^ 16 by norm_num; omega) (16 * h + s)).symm
  rw [e3]
  norm_num
  omega

theorem slotOf_lt (w : Int) : slotOf w < 16 := by
  rw [slotOf_eq]
  omega

theorem numchanOf_le (w : Int) : 1 ≤ numchanOf w ∧ numchanOf w ≤ 255 := by
  rw [numchanOf_eq]
  split <;> omega

/-! ## Constants -/

theorem size_cast : ((SCAL_NUMBANK * SCAL_NUMCHAN : Nat) : Int) = 384 := by decide

theorem size2_cast : ((2 * SCAL_NUMBANK * SCAL_NUMCHAN : Nat) : Int) = 768 := by decide

theorem numchan_cast : ((SCAL_NUMCHAN : Nat) : Int) = 32 := by decide

theorem size_nat : SCAL_NUMBANK * SCAL_NUMCHAN = 384 := by decide

/-! ## The store loops -/

theorem copyWord_apply (data : List Int) (i slot : Nat) (r : Int → Int) (j : Nat) (k : Int) :
    copyWord data i slot r j k =
      if k = (slot : Int) * 32 + (j : Int) - (i : Int) - 1 ∧ 0 ≤ k ∧ k < 384 then rd data j
      else r k := by
  unfold copyWord setAt
  simp only [size_cast, numchan_cast]
  by_cases e : k = (slot : Int) * 32 + (j : Int) - (i : Int) - 1
  · subst e
    by_cases c : 0 ≤ (slot : Int) * 32 + (j : Int) - (i : Int) - 1 ∧
        (slot : Int) * 32 + (j : Int) - (i : Int) - 1 < 384
    · simp [c]
    · rw [if_neg c, if_neg (by omega)]
  · have ne : ¬ (k = (slot : Int) * 32 + (j : Int) - (i : Int) - 1 ∧ 0 ≤ k ∧ k < 384) :=
      fun h => e h.1
    rw [if_neg ne]
    split
    · exact if_neg e
    · rfl

theorem copyBank_apply (data : List Int) (i slot : Nat) (raw : Int → Int) (k : Int) (n : Nat) :
    copyBank data i slot n raw k =
      if (slot : Int) * 32 ≤ k ∧ k < (slot : Int) * 32 + (n : Nat) ∧ k < 384
      then rd data (i + 1 + (k - (slot : Int) * 32).toNat) else raw k := by
  induction n with
  | zero =>
    rw [if_neg (by omega)]
    rfl
  | succ n ih =>
    unfold copyBank at ih ⊢
    rw [List.range'_concat, List.foldl_append, List.foldl_cons, List.foldl_nil,
      copyWord_apply, ih]
    by_cases e : k = (slot : Int) * 32 + ((i + 1 + 1 * n : Nat) : Int) - (i : Int) - 1 ∧
        0 ≤ k ∧ k < 384
    · rw [if_pos e, if_pos (by omega)]
      congr 1
      omega
    · rw [if_neg e]
      by_cases c : (slot : Int) * 32 ≤ k ∧ k < (slot : Int) * 32 + (n : Nat) ∧ k < 384
      · rw [if_pos c, if_pos (by omega)]
      · rw [if_neg c, if_neg (by omega)]

theorem copyPrev_apply (r : Int → Int) (i : Nat) (k : Int) :
    copyPrev r i k = if k = (i : Int) + 384 then r i else r k := by
  unfold copyPrev setAt
  rw [size_cast]

theorem loadPrevious_fold (raw : Int → Int) (k : Int) (n : Nat) (hn : n ≤ 384) :
    (List.range n).foldl copyPrev raw k =
      if 384 ≤ k ∧ k < 384 + (n : Nat) then raw (k - 384) else raw k := by
  induction n generalizing k with
  | zero =>
    rw [if_neg (by omega)]
    rfl
  | succ n ih =>
    rw [List.range_succ, List.foldl_append, List.foldl_cons, List.foldl_nil, copyPrev_apply]
    by_cases e : k = (n : Int) + 384
    · rw [if_pos e, if_pos (by omega), ih n (by omega), if_neg (by omega)]
      congr 1
      omega
    · rw [if_neg e, ih k (by omega)]
      by_cases c : 384 ≤ k ∧ k < 384 + (n : Nat)
      · rw [if_pos c, if_pos (by omega)]
      · rw [if_neg c, if_neg (by omega)]

theorem loadPreviousRaw_apply (raw : Int → Int) (k : Int) :
    loadPreviousRaw raw k = if 384 ≤ k ∧ k < 768 then raw (k - 384) else raw k := by
  unfold loadPreviousRaw
  rw [size_nat, loadPrevious_fold raw k 384 (le_refl _)]
  by_cases c : 384 ≤ k ∧ k < 768
  · rw [if_pos c, if_pos (by omega)]
  · rw [if_neg c, if_neg (by omega)]

theorem clearRaw_apply (raw : Int → Int) (k : Int) :
    clearRaw raw k = if 0 ≤ k ∧ k < 384 then 0 else raw k := by
  unfold clearRaw
  rw [size_cast]

/-! ## The scan loop -/

theorem anyHeader_succ (hdr : Nat) (data : List Int) (n : Nat) :
    anyHeader hdr data (n + 1) = (anyHeader hdr data n || isHeader hdr (rd data n)) := by
  unfold anyHeader
  rw [List.range_succ, List.any_append]
  simp

theorem anyHeader_of_header (hdr : Nat) (data : List Int) (i : Nat)
    (hh : isHeader hdr (rd data i) = true) (n : Nat) (hi : i < n) :
    anyHeader hdr data n = true := by
  unfold anyHeader
  rw [List.any_eq_true]
  exact ⟨i, List.mem_range.mpr hi, hh⟩

theorem bankStep_apply (hdr : Nat) (data : List Int) (raw : Int → Int) (i : Nat) (k : Int) :
    bankStep hdr data raw i k =
      if (isHeader hdr (rd data i) && hits data i k) = true then bankWord data i k
      else raw k := by
  unfold bankStep
  cases hH : isHeader hdr (rd data i)
  · simp
  · simp only [if_true, Bool.true_and]
    rw [copyBank_apply]
    unfold hits bankWord
    by_cases c : (slotOf (rd data i) : Int) * 32 ≤ k ∧
        k < (slotOf (rd data i) : Int) * 32 + (numchanOf (rd data i) : Nat) ∧ k < 384
    · rw [if_pos c, if_pos (decide_eq_true c)]
    · rw [if_neg c, if_neg (by simpa using c)]

theorem decode_succ (hdr : Nat) (data : List Int) (n : Nat) (raw : Int → Int) :
    decode hdr data (n + 1) raw = bankStep hdr data (decode hdr data n raw) n := by
  unfold decode
  rw [List.range_succ, List.foldl_append]
  rfl

theorem lastWrite_succ (hdr : Nat) (data : List Int) (k : Int) (n : Nat) :
    lastWrite hdr data (n + 1) k =
      if (isHeader hdr (rd data n) && hits data n k) = true then some (bankWord data n k)
      else lastWrite hdr data n k := rfl

theorem decode_apply (hdr : Nat) (data : List Int) (raw : Int → Int) (k : Int) (n : Nat) :
    decode hdr data n raw k = (lastWrite hdr data n k).getD (raw k) := by
  induction n with
  | zero => rfl
  | succ n ih =>
    rw [decode_succ, bankStep_apply, ih, lastWrite_succ]
    split <;> rfl

theorem lastWrite_none (hdr : Nat) (data : List Int) (k : Int) (n : Nat)
    (h : anyHeader hdr data n = false) : lastWrite hdr data n k = none := by
  induction n with
  | zero => rfl
  | succ n ih =>
    rw [anyHeader_succ, Bool.or_eq_false_iff] at h
    rw [lastWrite_succ, h.2, Bool.false_and, if_neg (by simp)]
    exact ih h.1

theorem decode_of_no_header (hdr : Nat) (data : List Int) (raw : Int → Int) (n : Nat)
    (h : anyHeader hdr data n = false) : decode hdr data n raw = raw := by
  funext k
  rw [decode_apply, lastWrite_none hdr data k n h]
  rfl

theorem scan_fold (s0 : THaScaler) (d : List Int) (n : Nat) :
    (List.range n).foldl (scanStep d) (true, s0) =
      if anyHeader s0.header d n = true then
        (false,
          { s0 with
            rawdata := decode s0.header d n (clearRaw (loadPreviousRaw s0.rawdata)),
            found_crate := true })
      else (true, s0) := by
  induction n with
  | zero => rfl
  | succ n ih =>
    rw [List.range_succ, List.foldl_append, ih, anyHeader_succ, decode_succ]
    cases hA : anyHeader s0.header d n <;> cases hH : isHeader s0.header (rd d n)
    · simp [scanStep, hH]
    · simp [scanStep, hH, bankStep, Clear, LoadPrevious, decode_of_no_header _ _ _ _ hA]
    · simp [scanStep, hH, bankStep]
    · simp [scanStep, hH, bankStep]

theorem ExtractRaw_eq (s : THaScaler) (d : List Int) (dlen : Int) :
    ExtractRaw s (some d) dlen =
      if scanLen s d dlen > 10000 then (0, Clear { s with found_crate := false })
      else if anyHeader s.header d (scanLen s d dlen).toNat = true then
        (1,
          { s with
            rawdata := decode s.header d (scanLen s d dlen).toNat
              (clearRaw (loadPreviousRaw s.rawdata)),
            found_crate := true, new_load := true, one_load := true })
      else (0, { s with found_crate := false }) := by
  unfold ExtractRaw
  by_cases hl : scanLen s d dlen > 10000
  · simp only [hl, if_true]
  · simp only [hl, if_false]
    rw [scan_fold]
    cases hA : anyHeader s.header d (scanLen s d dlen).toNat <;> simp [hA]

theorem lastWrite_outside (hdr : Nat) (data : List Int) (k : Int) (hk : k < 0 ∨ 384 ≤ k)
    (n : Nat) : lastWrite hdr data n k = none := by
  induction n with
  | zero => rfl
  | succ n ih =>
    have hh : hits data n k = false := by
      unfold hits
      apply decide_eq_false
      omega
    rw [lastWrite_succ, hh, Bool.and_false, if_neg (by simp)]
    exact ih

theorem lastWrite_of_last (hdr : Nat) (data : List Int) (i : Nat) (k : Int)
    (hh : isHeader hdr (rd data i) = true) (hk : hits data i k = true) (n : Nat) (hi : i < n)
    (hl : ∀ j, i < j → j < n → (isHeader hdr (rd data j) && hits data j k) = false) :
    lastWrite hdr data n k = some (bankWord data i k) := by
  induction n with
  | zero => omega
  | succ n ih =>
    rw [lastWrite_succ]
    by_cases e : i = n
    · subst e
      rw [hh, hk, Bool.and_true, if_pos rfl]
    · rw [hl n (by omega) (by omega), if_neg (by simp)]
      exact ih (by omega) (fun j h1 h2 => hl j h1 (by omega))

theorem ExtractRaw_rawdata (s : THaScaler) (data : List Int) (dlen : Int) (k : Int) :
    (ExtractRaw s (some data) dlen).2.rawdata k = storeAfter s data dlen k := by
  rw [ExtractRaw_eq]
  unfold storeAfter
  by_cases hl : scanLen s data dlen > 10000
  · rw [if_pos hl, if_pos hl]
    exact clearRaw_apply _ _
  · rw [if_neg hl, if_neg hl]
    cases hA : anyHeader s.header data (scanLen s data dlen).toNat
    · simp
    · simp only [if_true, Bool.true_eq_false, if_false]
      rw [decode_apply, clearRaw_apply, loadPreviousRaw_apply]
      by_cases c1 : 0 ≤ k ∧ k < 384
      · rw [if_pos c1, if_pos c1]
      · rw [if_neg c1, if_neg c1, lastWrite_outside _ _ _ (by omega)]
        rfl

theorem ExtractRaw_fst (s : THaScaler) (data : List Int) (dlen : Int) :
    (ExtractRaw s (some data) dlen).1 =
      if scanLen s data dlen > 10000 then 0
      else if anyHeader s.header data (scanLen s data dlen).toNat = true then 1 else 0 := by
  rw [ExtractRaw_eq]
  split
  · rfl
  · split <;> rfl

theorem current_eq (s : THaScaler) (k : Nat) : current s k = s.rawdata (k : Int) := rfl

theorem previous_eq (s : THaScaler) (k : Nat) : previous s k = s.rawdata ((k : Int) + 384) := by
  unfold previous
  rw [size_cast]

theorem ExtractRaw_rawdata_found (st : THaScaler) (d : List Int) (dlen : Int)
    (hl : ¬ scanLen st d dlen > 10000)
    (hA : anyHeader st.header d (scanLen st d dlen).toNat = true) (k : Int) :
    (ExtractRaw st (some d) dlen).2.rawdata k =
      if 0 ≤ k ∧ k < 384 then (lastWrite st.header d (scanLen st d dlen).toNat k).getD 0
      else if 384 ≤ k ∧ k < 768 then st.rawdata (k - 384) else st.rawdata k := by
  rw [ExtractRaw_rawdata]
  unfold storeAfter
  rw [if_neg hl, hA, if_neg (by simp)]

/-! ## Claims on ExtractRaw -/

theorem scanLen_of_fits (s : THaScaler) (data : List Int) (dlen : Int) (n : Nat)
    (hd : derivedLen data dlen = n) (hmax : (n : Int) ≤ s.buffSize) :
    scanLen s data dlen = n := by
  unfold scanLen
  rw [hd]
  split <;> omega

/-- Claim C1: a buffer of at most 10000 words, scanned in full, whose only word matching
the header pattern `H` is `H | (s << 16) | c` at index `i`, with slot `s < SCAL_NUMBANK`
and count field `c = N` (or `c = 0` for `N = 32`), followed by `N` channel words inside
the buffer: `ExtractRaw` returns 1 and `current[s*SCAL_NUMCHAN + k] = data[i+1+k]` for
every `k < N`. -/
theorem ExtractRaw_single_bank (st : THaScaler) (data : List Int) (dlen : Int)
    (H s N c i : Nat)
    (hH : H < 4294967296 ∧ H % 1048576 = 0) (hhdr : st.header = H)
    (hs : s < SCAL_NUMBANK) (hN1 : 1 ≤ N) (hN : N ≤ SCAL_NUMCHAN)
    (hc : c = N ∨ (c = 0 ∧ N = 32))
    (hlen : data.length ≤ 10000) (hmax : (data.length : Int) ≤ st.buffSize)
    (hd : derivedLen data dlen = data.length)
    (hi : i + N < data.length)
    (hw : u32 (rd data i) = H ||| (s <<< 16) ||| c)
    (huniq : ∀ j, j < data.length → isHeader H (rd data j) = true → j = i) :
    (ExtractRaw st (some data) dlen).1 = 1 ∧
      ∀ k, k < N →
        current (ExtractRaw st (some data) dlen).2 (s * SCAL_NUMCHAN + k) = rd data (i + 1 + k) := by
  have hs12 : s < 12 := hs
  have hN32 : N ≤ 32 := hN
  have hcl : c < 256 := by omega
  have hwa : u32 (rd data i) = H + s * 65536 + c := by
    rw [hw, header_word_eq H s c hH.2 (by omega) hcl]
  have hslot : slotOf (rd data i) = s := by
    rw [slotOf_eq, hwa]
    omega
  have hnum : numchanOf (rd data i) = N := by
    rw [numchanOf_eq, hwa]
    split <;> omega
  have hhead : isHeader H (rd data i) = true := by
    rw [isHeader_iff, hwa]
    omega
  have hsl : scanLen st data dlen = data.length := scanLen_of_fits st data dlen _ hd hmax
  have hany : anyHeader st.header data data.length = true := by
    rw [hhdr]
    exact anyHeader_of_header H data i hhead _ (by omega)
  rw [ExtractRaw_eq, hsl, if_neg (by omega), Int.toNat_ofNat, if_pos hany]
  refine ⟨rfl, ?_⟩
  intro k hk
  unfold current
  have hkk : (((s * SCAL_NUMCHAN + k : Nat)) : Int) = (s : Int) * 32 + k := by
    simp [SCAL_NUMCHAN]
  show decode st.header data data.length _ _ = _
  rw [hkk, decode_apply, hhdr,
    lastWrite_of_last H data i ((s : Int) * 32 + k) hhead
      (by unfold hits; rw [hslot, hnum]; apply decide_eq_true; omega) data.length (by omega)
      (fun j h1 h2 => by
        have := huniq j h2
        cases hj : isHeader H (rd data j)
        · rfl
        · exact absurd (this hj) (by omega))]
  unfold bankWord
  rw [hslot, Option.getD_some]
  congr 1
  omega

/-- Witness for C1: header `0xabc00000`, slot 6, two channel words. -/
theorem ExtractRaw_single_bank_witness :
    (ExtractRaw { mk0 "Left" 100005 with header := 0xabc00000 }
        (some [5, 0, 0, toInt32 0xabc60002, 0x11, 0x22]) 0).1 = 1 ∧
      ∀ k, k < 2 →
        current (ExtractRaw { mk0 "Left" 100005 with header := 0xabc00000 }
          (some [5, 0, 0, toInt32 0xabc60002, 0x11, 0x22]) 0).2 (6 * SCAL_NUMCHAN + k) =
          rd [5, 0, 0, toInt32 0xabc60002, 0x11, 0x22] (3 + 1 + k) :=
  ExtractRaw_single_bank { mk0 "Left" 100005 with header := 0xabc00000 }
    [5, 0, 0, toInt32 0xabc60002, 0x11, 0x22] 0 0xabc00000 6 2 2 3
    (by decide) rfl (by decide) (by decide) (by decide) (by decide) (by decide) (by decide)
    (by decide) (by decide) (by decide) (by decide)

/-- Claim C2, as stated, fails: with active header `0xABC00000` the word `0xABC06002` is
not recognised as a header, since its bits `0x0000ff00` are not zero; scanning
`[5, 0, 0, 0xABC06002, 0x11, 0x22]` from the freshly constructed store returns 0 and
leaves `current[6*SCAL_NUMCHAN]` at 0. -/
theorem word_ABC06002_not_header :
    isHeader 0xABC00000 (toInt32 0xABC06002) = false ∧
      (ExtractRaw { mk0 "Left" 100005 with header := 0xABC00000 }
        (some [0x00000005, 0, 0, toInt32 0xABC06002, 0x11, 0x22]) 0).1 = 0 ∧
      current (ExtractRaw { mk0 "Left" 100005 with header := 0xABC00000 }
        (some [0x00000005, 0, 0, toInt32 0xABC06002, 0x11, 0x22]) 0).2
          (6 * SCAL_NUMCHAN + 0) ≠ 0x11 := by
  refine ⟨by decide, by decide, by decide⟩

/-- Claim C2, amended: with active header `0xABC00000`, scanning the six-word buffer
`[0x00000005, x, y, 0xABC60002, 0x11, 0x22]` (any `x`, `y`) returns 1 and yields
`current[6*SCAL_NUMCHAN + 0] = 0x11` and `current[6*SCAL_NUMCHAN + 1] = 0x22`: the word
`0xABC60002` is a header of slot 6 with 2 channels. -/
theorem ExtractRaw_example (s : THaScaler) (x y : Int) (hh : s.header = 0xABC00000)
    (hmax : 6 ≤ s.buffSize) :
    isHeader 0xABC00000 (toInt32 0xABC60002) = true ∧
      slotOf (toInt32 0xABC60002) = 6 ∧ numchanOf (toInt32 0xABC60002) = 2 ∧
      (ExtractRaw s (some [0x00000005, x, y, toInt32 0xABC60002, 0x11, 0x22]) 0).1 = 1 ∧
      current (ExtractRaw s (some [0x00000005, x, y, toInt32 0xABC60002, 0x11, 0x22]) 0).2
        (6 * SCAL_NUMCHAN + 0) = 0x11 ∧
      current (ExtractRaw s (some [0x00000005, x, y, toInt32 0xABC60002, 0x11, 0x22]) 0).2
        (6 * SCAL_NUMCHAN + 1) = 0x22 := by
  have hsl : scanLen s [0x00000005, x, y, toInt32 0xABC60002, 0x11, 0x22] 0 = (6 : Nat) :=
    scanLen_of_fits s _ 0 6 rfl hmax
  have hhead : isHeader 0xABC00000
      (rd [0x00000005, x, y, toInt32 0xABC60002, 0x11, 0x22] 3) = true := by
    show isHeader 0xABC00000 (toInt32 0xABC60002) = true
    decide
  have hlater : ∀ (k : Int) (j : Nat), 3 < j → j < 6 →
      (isHeader 0xABC00000 (rd [0x00000005, x, y, toInt32 0xABC60002, 0x11, 0x22] j) &&
        hits [0x00000005, x, y, toInt32 0xABC60002, 0x11, 0x22] j k) = false := by
    intro k j h1 h2
    have hj : isHeader 0xABC00000
        (rd [0x00000005, x, y, toInt32 0xABC60002, 0x11, 0x22] j) = false := by
      obtain rfl | rfl : j = 4 ∨ j = 5 := by omega
      · show isHeader 0xABC00000 0x11 = false
        decide
      · show isHeader 0xABC00000 0x22 = false
        decide
    rw [hj, Bool.false_and]
  have hany : anyHeader s.header [0x00000005, x, y, toInt32 0xABC60002, 0x11, 0x22] 6 = true := by
    rw [hh]
    exact anyHeader_of_header _ _ 3 hhead 6 (by decide)
  have hslot : slotOf (rd [0x00000005, x, y, toInt32 0xABC60002, 0x11, 0x22] 3) = 6 := by
    show slotOf (toInt32 0xABC60002) = 6
    decide
  have hnum : numchanOf (rd [0x00000005, x, y, toInt32 0xABC60002, 0x11, 0x22] 3) = 2 := by
    show numchanOf (toInt32 0xABC60002) = 2
    decide
  have hval : ∀ k : Int, 192 ≤ k → k < 194 →
      (ExtractRaw s (some [0x00000005, x, y, toInt32 0xABC60002, 0x11, 0x22]) 0).2.rawdata k =
        rd [0x00000005, x, y, toInt32 0xABC60002, 0x11, 0x22] (3 + 1 + (k - 192).toNat) := by
    intro k h1 h2
    rw [ExtractRaw_rawdata]
    unfold storeAfter
    rw [hsl, if_neg (by decide), Int.toNat_ofNat, hany, if_neg (by simp), if_pos (by omega), hh,
      lastWrite_of_last _ _ 3 k hhead
        (by unfold hits; rw [hslot, hnum]; apply decide_eq_true; omega) 6 (by decide)
        (hlater k)]
    unfold bankWord
    rw [hslot, Option.getD_some]
    rfl
  refine ⟨by decide, by decide, by decide, ?_, ?_, ?_⟩
  · rw [ExtractRaw_fst, hsl, if_neg (by decide), Int.toNat_ofNat, if_pos hany]
  · rw [current_eq, show (((6 * SCAL_NUMCHAN + 0 : Nat)) : Int) = 192 by decide,
      hval 192 (by decide) (by decide)]
    rfl
  · rw [current_eq, show (((6 * SCAL_NUMCHAN + 1 : Nat)) : Int) = 193 by decide,
      hval 193 (by decide) (by decide)]
    rfl

/-- Witness for the amended C2, from the freshly constructed store. -/
theorem ExtractRaw_example_witness :
    isHeader 0xABC00000 (toInt32 0xABC60002) = true ∧
      slotOf (toInt32 0xABC60002) = 6 ∧ numchanOf (toInt32 0xABC60002) = 2 ∧
      (ExtractRaw { mk0 "Left" 100005 with header := 0xABC00000 }
        (some [0x00000005, 7, 9, toInt32 0xABC60002, 0x11, 0x22]) 0).1 = 1 ∧
      current (ExtractRaw { mk0 "Left" 100005 with header := 0xABC00000 }
        (some [0x00000005, 7, 9, toInt32 0xABC60002, 0x11, 0x22]) 0).2
        (6 * SCAL_NUMCHAN + 0) = 0x11 ∧
      current (ExtractRaw { mk0 "Left" 100005 with header := 0xABC00000 }
        (some [0x00000005, 7, 9, toInt32 0xABC60002, 0x11, 0x22]) 0).2
        (6 * SCAL_NUMCHAN + 1) = 0x22 :=
  ExtractRaw_example { mk0 "Left" 100005 with header := 0xABC00000 } 7 9 rfl (by decide)

/-- Claim C3: after two successful extractions, the previous half equals the current
half as it was after the first call, the current half equals the result of decoding the
second buffer into an all-zero store, and an entry that no bank of the second buffer
writes reads 0. -/
theorem ExtractRaw_rotation (s : THaScaler) (b1 b2 : List Int) (l1 l2 : Int)
    (h1 : (ExtractRaw s (some b1) l1).1 = 1)
    (h2 : (ExtractRaw (ExtractRaw s (some b1) l1).2 (some b2) l2).1 = 1)
    (k : Nat) (hk : k < SCAL_NUMBANK * SCAL_NUMCHAN) :
    previous (ExtractRaw (ExtractRaw s (some b1) l1).2 (some b2) l2).2 k =
        current (ExtractRaw s (some b1) l1).2 k ∧
      current (ExtractRaw (ExtractRaw s (some b1) l1).2 (some b2) l2).2 k =
        current (ExtractRaw { (ExtractRaw s (some b1) l1).2 with rawdata := fun _ => 0 }
          (some b2) l2).2 k ∧
      (lastWrite (ExtractRaw s (some b1) l1).2.header b2
          (scanLen (ExtractRaw s (some b1) l1).2 b2 l2).toNat k = none →
        current (ExtractRaw (ExtractRaw s (some b1) l1).2 (some b2) l2).2 k = 0) := by
  have hk2 : k < 384 := hk
  generalize ExtractRaw s (some b1) l1 = r1 at h1 h2 ⊢
  obtain ⟨v1, s1⟩ := r1
  simp only at h2 ⊢
  rw [ExtractRaw_fst] at h2
  have hl : ¬ scanLen s1 b2 l2 > 10000 := by
    intro h
    rw [if_pos h] at h2
    omega
  rw [if_neg hl] at h2
  have hA : anyHeader s1.header b2 (scanLen s1 b2 l2).toNat = true := by
    cases h : anyHeader s1.header b2 (scanLen s1 b2 l2).toNat
    · rw [h, if_neg (by simp)] at h2
      omega
    · rfl
  have e0 := ExtractRaw_rawdata_found { s1 with rawdata := fun _ => 0 } b2 l2 hl hA k
  rw [previous_eq, current_eq, current_eq, current_eq, e0,
    ExtractRaw_rawdata_found s1 b2 l2 hl hA k, ExtractRaw_rawdata_found s1 b2 l2 hl hA (k + 384),
    if_neg (by omega), if_pos (by omega), if_pos (by omega), if_pos (by omega)]
  refine ⟨?_, rfl, ?_⟩
  · rw [show ((k : Int) + 384 - 384) = k by omega]
  · intro hn
    rw [hn]
    rfl

/-- Witness for C3: two extractions from the freshly constructed store, entry
`6*SCAL_NUMCHAN`. -/
theorem ExtractRaw_rotation_witness :
    previous (ExtractRaw (ExtractRaw { mk0 "Left" 100005 with header := 0xabc00000 }
        (some [2, toInt32 0xabc60001, 0x11]) 0).2 (some [2, toInt32 0xabc70001, 0x22]) 0).2 192 =
        current (ExtractRaw { mk0 "Left" 100005 with header := 0xabc00000 }
          (some [2, toInt32 0xabc60001, 0x11]) 0).2 192 ∧
      current (ExtractRaw (ExtractRaw { mk0 "Left" 100005 with header := 0xabc00000 }
        (some [2, toInt32 0xabc60001, 0x11]) 0).2 (some [2, toInt32 0xabc70001, 0x22]) 0).2 192 =
        current (ExtractRaw
          { (ExtractRaw { mk0 "Left" 100005 with header := 0xabc00000 }
              (some [2, toInt32 0xabc60001, 0x11]) 0).2 with rawdata := fun _ => 0 }
          (some [2, toInt32 0xabc70001, 0x22]) 0).2 192 ∧
      (lastWrite (ExtractRaw { mk0 "Left" 100005 with header := 0xabc00000 }
            (some [2, toInt32 0xabc60001, 0x11]) 0).2.header [2, toInt32 0xabc70001, 0x22]
          (scanLen (ExtractRaw { mk0 "Left" 100005 with header := 0xabc00000 }
            (some [2, toInt32 0xabc60001, 0x11]) 0).2 [2, toInt32 0xabc70001, 0x22] 0).toNat
          (192 : Nat) = none →
        current (ExtractRaw (ExtractRaw { mk0 "Left" 100005 with header := 0xabc00000 }
          (some [2, toInt32 0xabc60001, 0x11]) 0).2 (some [2, toInt32 0xabc70001, 0x22]) 0).2
            192 = 0) :=
  ExtractRaw_rotation { mk0 "Left" 100005 with header := 0xabc00000 }
    [2, toInt32 0xabc60001, 0x11] [2, toInt32 0xabc70001, 0x22] 0 0 (by decide) (by decide)
    192 (by decide)

/-- Claim C4, the code at the failing input: on a loaded object (reader buffer size
100005) the buffer has first word 0x7FFFFFFF and the length argument is 0, so first word
+ 1 is 2147483648 and exceeds the ceiling; the sum as computed in `Int_t` is
-2147483648, the ceiling test does not fire, the call returns 0 with `found_crate` false,
and the current half is not zeroed: entries 131 and 135 still hold 500 and 2048. -/
theorem ExtractRaw_ceiling_overflow :
    10000 < rd [0x7fffffff, 1, 2] 0 + 1 ∧
      derivedLen [0x7fffffff, 1, 2] 0 = -2147483648 ∧
      (ExtractRaw (loadedState 2048 1024) (some [0x7fffffff, 1, 2]) 0).1 = 0 ∧
      (ExtractRaw (loadedState 2048 1024) (some [0x7fffffff, 1, 2]) 0).2.found_crate = false ∧
      current (ExtractRaw (loadedState 2048 1024) (some [0x7fffffff, 1, 2]) 0).2 131 = 500 ∧
      current (ExtractRaw (loadedState 2048 1024) (some [0x7fffffff, 1, 2]) 0).2 135 = 2048 := by
  refine ⟨by decide, by decide, by decide, by decide, by decide, by decide⟩

/-- The ceiling test where the length is in range: when the derived length, computed in
`Int_t`, exceeds 10000 and the reader's buffer size exceeds 10000 as well, `ExtractRaw`
returns 0 with `found_crate` false and every entry of the current half is 0 afterwards. -/
theorem ExtractRaw_ceiling (s : THaScaler) (data : List Int) (dlen : Int)
    (hlen : 10000 < derivedLen data dlen) (hmax : 10000 < s.buffSize) :
    (ExtractRaw s (some data) dlen).1 = 0 ∧
      (ExtractRaw s (some data) dlen).2.found_crate = false ∧
      ∀ k, k < SCAL_NUMBANK * SCAL_NUMCHAN → current (ExtractRaw s (some data) dlen).2 k = 0 := by
  have hsl : scanLen s data dlen > 10000 := by
    unfold scanLen
    split <;> omega
  have h1 : (ExtractRaw s (some data) dlen).1 = 0 := by
    rw [ExtractRaw_fst, if_pos hsl]
  have h2 : (ExtractRaw s (some data) dlen).2.found_crate = false := by
    rw [ExtractRaw_eq, if_pos hsl]
    rfl
  refine ⟨h1, h2, ?_⟩
  intro k hk
  have hk2 : k < 384 := hk
  rw [current_eq, ExtractRaw_rawdata]
  unfold storeAfter
  rw [if_pos hsl, if_pos (by omega)]

/-- The ceiling test at a concrete buffer: first word 20000 with the default length
argument, on an object whose store holds 7 everywhere. -/
theorem ExtractRaw_ceiling_witness :
    (ExtractRaw { mk0 "Left" 100005 with rawdata := fun _ => 7 } (some [20000, 1, 2]) 0).1 = 0 ∧
      (ExtractRaw { mk0 "Left" 100005 with rawdata := fun _ => 7 }
        (some [20000, 1, 2]) 0).2.found_crate = false ∧
      ∀ k, k < SCAL_NUMBANK * SCAL_NUMCHAN →
        current (ExtractRaw { mk0 "Left" 100005 with rawdata := fun _ => 7 }
          (some [20000, 1, 2]) 0).2 k = 0 :=
  ExtractRaw_ceiling { mk0 "Left" 100005 with rawdata := fun _ => 7 } [20000, 1, 2] 0
    (by decide) (by decide)

/-- Claim C5: every store index after `ExtractRaw` holds what `storeAfter` describes:
memory outside the array is untouched, the previous half changes only by the rotation
copy, the out-of-range writes of a header (slot up to 15, channel count up to 255) are
dropped while its in-range writes and those of every later header are performed. -/
theorem ExtractRaw_store (s : THaScaler) (data : List Int) (dlen : Int) (k : Int) (w : Int) :
    slotOf w ≤ 15 ∧ 1 ≤ numchanOf w ∧ numchanOf w ≤ 255 ∧
      (ExtractRaw s (some data) dlen).2.rawdata k = storeAfter s data dlen k :=
  ⟨Nat.le_of_lt_succ (slotOf_lt w), (numchanOf_le w).1, (numchanOf_le w).2,
    ExtractRaw_rawdata s data dlen k⟩

/-- Witness for C5: a header of slot 15 (all writes out of range), a header of slot 11
with 33 channels (the last write out of range) and a later header of slot 2, on a store
holding `1000 + k` at index `k`. -/
theorem ExtractRaw_store_witness :
    (ExtractRaw { mk0 "Left" 100005 with header := 0xabc00000, rawdata := fun k => 1000 + k }
        (some [8, toInt32 0xabcf0001, 0x55, toInt32 0xabcb0021, 0x66, toInt32 0xabc20001,
          0x77, 0, 0]) 0).2.rawdata 352 = 0x66 ∧
      (ExtractRaw { mk0 "Left" 100005 with header := 0xabc00000, rawdata := fun k => 1000 + k }
        (some [8, toInt32 0xabcf0001, 0x55, toInt32 0xabcb0021, 0x66, toInt32 0xabc20001,
          0x77, 0, 0]) 0).2.rawdata 384 = 1000 ∧
      (ExtractRaw { mk0 "Left" 100005 with header := 0xabc00000, rawdata := fun k => 1000 + k }
        (some [8, toInt32 0xabcf0001, 0x55, toInt32 0xabcb0021, 0x66, toInt32 0xabc20001,
          0x77, 0, 0]) 0).2.rawdata 480 = 1096 ∧
      (ExtractRaw { mk0 "Left" 100005 with header := 0xabc00000, rawdata := fun k => 1000 + k }
        (some [8, toInt32 0xabcf0001, 0x55, toInt32 0xabcb0021, 0x66, toInt32 0xabc20001,
          0x77, 0, 0]) 0).2.rawdata 64 = 0x77 ∧
      (ExtractRaw { mk0 "Left" 100005 with header := 0xabc00000, rawdata := fun k => 1000 + k }
        (some [8, toInt32 0xabcf0001, 0x55, toInt32 0xabcb0021, 0x66, toInt32 0xabc20001,
          0x77, 0, 0]) 0).2.rawdata 768 = 1768 :=
  ⟨(ExtractRaw_store _ _ 0 352 0).2.2.2.trans (by decide), (ExtractRaw_store _ _ 0 384 0).2.2.2.trans (by decide),
    (ExtractRaw_store _ _ 0 480 0).2.2.2.trans (by decide), (ExtractRaw_store _ _ 0 64 0).2.2.2.trans (by decide),
    (ExtractRaw_store _ _ 0 768 0).2.2.2.trans (by decide)⟩

/-! ## Bank resolution -/

theorem swapBank_left_right (b : Bool) (d1 d2 : Bdate) (h1 : d1.before dswap = true)
    (h2 : d2.before dswap = false) :
    swapBank (bankOfName b "Left") d1 = swapBank (bankOfName b "Right") d2 ∧
      swapBank (bankOfName b "Right") d1 = swapBank (bankOfName b "Left") d2 := by
  have eL : bankOfName true "Left" = "Left" := by decide
  have eR : bankOfName true "Right" = "Right" := by decide
  have fL : bankOfName false "Left" = "unknown" := rfl
  have fR : bankOfName false "Right" = "unknown" := rfl
  cases b
  · rw [fL, fR]
    unfold swapBank
    rw [h1, h2]
    exact ⟨by decide, by decide⟩
  · rw [eL, eR]
    unfold swapBank
    rw [h1, h2]
    exact ⟨by decide, by decide⟩

/-- Claim C6: for a date `d1` before 15-Sep-2000 and a date `d2` on or after it,
`InitData("Left", d1)` selects the same descriptor as `InitData("Right", d2)`, and
`InitData("Right", d1)` the same as `InitData("Left", d2)`. -/
theorem InitData_date_swap (s : THaScaler) (d1 d2 : Bdate) (h1 : d1.before dswap = true)
    (h2 : d2.before dswap = false) :
    descriptor (InitData s "Left" d1).2 = descriptor (InitData s "Right" d2).2 ∧
      descriptor (InitData s "Right" d1).2 = descriptor (InitData s "Left" d2).2 := by
  have key := swapBank_left_right s.database.isSome d1 d2 h1 h2
  unfold InitData
  simp only [key.1, key.2, and_self]

/-- Witness for C6: 14-Sep-2000 against 15-Sep-2000, on an object with a database; the
descriptors are those of crate 7 and crate 8. -/
theorem InitData_date_swap_witness :
    (descriptor (InitData
        { mk0 "Left" 100005 with
          database := some ⟨fun _ _ _ => 0, fun _ _ _ _ => 0, fun _ _ _ => []⟩ }
        "Left" ⟨14, 9, 2000⟩).2 =
      descriptor (InitData
        { mk0 "Left" 100005 with
          database := some ⟨fun _ _ _ => 0, fun _ _ _ _ => 0, fun _ _ _ => []⟩ }
        "Right" ⟨15, 9, 2000⟩).2 ∧
      descriptor (InitData
        { mk0 "Left" 100005 with
          database := some ⟨fun _ _ _ => 0, fun _ _ _ _ => 0, fun _ _ _ => []⟩ }
        "Right" ⟨14, 9, 2000⟩).2 =
      descriptor (InitData
        { mk0 "Left" 100005 with
          database := some ⟨fun _ _ _ => 0, fun _ _ _ _ => 0, fun _ _ _ => []⟩ }
        "Left" ⟨15, 9, 2000⟩).2) ∧
      (InitData
        { mk0 "Left" 100005 with
          database := some ⟨fun _ _ _ => 0, fun _ _ _ _ => 0, fun _ _ _ => []⟩ }
        "Left" ⟨14, 9, 2000⟩).2.crate = 7 ∧
      (InitData
        { mk0 "Left" 100005 with
          database := some ⟨fun _ _ _ => 0, fun _ _ _ _ => 0, fun _ _ _ => []⟩ }
        "Right" ⟨14, 9, 2000⟩).2.crate = 8 :=
  ⟨InitData_date_swap _ ⟨14, 9, 2000⟩ ⟨15, 9, 2000⟩ (by decide) (by decide), by decide,
    by decide⟩

/-! ## Counts and rates -/

theorem isub_of_fits (a b : Int) (h : -2147483648 ≤ a - b ∧ a - b < 2147483648) :
    isub a b = a - b := by
  unfold isub wrap32
  omega

theorem isub_self (a : Int) : isub a a = 0 := by
  unfold isub wrap32
  omega

theorem fdiv_of_ne (a b : ℚ) (h : b ≠ 0) : fdiv a b = some (a / b) := by
  unfold fdiv
  rw [if_neg h]

theorem GetTimeDiff_clock (s : THaScaler) (helicity : Int) (hclk : s.use_clock = true)
    (hrate : s.clockrate ≠ 0) :
    GetTimeDiff s helicity =
      some (((isub (clockCount s helicity 0) (clockCount s helicity 1) : Int) : ℚ) /
        s.clockrate) := by
  unfold GetTimeDiff clockCount
  rw [hclk]
  simp only [Bool.not_true, Bool.false_eq_true, if_false, if_neg hrate]
  split <;> exact fdiv_of_ne _ _ hrate

theorem GetTimeDiff_total (s : THaScaler) (helicity : Int) :
    ∃ t, GetTimeDiff s helicity = some t := by
  by_cases hrate : s.clockrate = 0
  · refine ⟨0, ?_⟩
    unfold GetTimeDiff
    cases s.use_clock <;> simp [hrate]
  · cases hclk : s.use_clock
    · refine ⟨1 / s.clockrate, ?_⟩
      unfold GetTimeDiff
      rw [hclk]
      simp only [Bool.not_false, if_true]
      rw [if_pos hrate]
      exact fdiv_of_ne _ _ hrate
    · exact ⟨_, GetTimeDiff_clock s helicity hclk hrate⟩

theorem rateBody_of_pos (t : ℚ) (cur prev : Int) (ht : 0 < t) :
    rateBody (some t) cur prev = some (((isub cur prev : Int) : ℚ) / t) := by
  unfold rateBody
  simp only
  rw [if_pos ht]
  exact fdiv_of_ne _ _ (ne_of_gt ht)

theorem rateBody_of_nonpos (e : Option ℚ) (cur prev : Int) (h : ∀ t, e = some t → t ≤ 0)
    (hs : ∃ t, e = some t) : rateBody e cur prev = some 0 := by
  obtain ⟨t, rfl⟩ := hs
  unfold rateBody
  simp only
  rw [if_neg (not_lt.mpr (h t rfl))]

/-- Claim C7: in clock mode with non-zero clock rate and positive elapsed time, where
elapsed time is (clock count current − clock count previous) / clockrate, `GetNormRate`
returns (`GetNormData(.., 0)` − `GetNormData(.., 1)`) / elapsed time, over the rationals,
provided neither 32-bit count difference overflows. -/
theorem GetNormRate_eq (s : THaScaler) (helicity : Int) (name : String)
    (hclk : s.use_clock = true) (hrate : s.clockrate ≠ 0)
    (hc : -2147483648 ≤ clockCount s helicity 0 - clockCount s helicity 1 ∧
      clockCount s helicity 0 - clockCount s helicity 1 < 2147483648)
    (hn : -2147483648 ≤ GetNormData s helicity name 0 - GetNormData s helicity name 1 ∧
      GetNormData s helicity name 0 - GetNormData s helicity name 1 < 2147483648)
    (hpos : 0 < ((clockCount s helicity 0 - clockCount s helicity 1 : Int) : ℚ) / s.clockrate) :
    GetTimeDiff s helicity =
        some (((clockCount s helicity 0 - clockCount s helicity 1 : Int) : ℚ) / s.clockrate) ∧
      GetNormRate s helicity name =
        some (((GetNormData s helicity name 0 - GetNormData s helicity name 1 : Int) : ℚ) /
          (((clockCount s helicity 0 - clockCount s helicity 1 : Int) : ℚ) / s.clockrate)) := by
  have ht := GetTimeDiff_clock s helicity hclk hrate
  rw [isub_of_fits _ _ hc] at ht
  refine ⟨ht, ?_⟩
  unfold GetNormRate
  rw [ht, rateBody_of_pos _ _ _ hpos, isub_of_fits _ _ hn]

/-- Claim C8: elapsed time is always computed without a division by zero; in clock mode
it is 0 when the clock rate is 0 or the clock channel's current and previous counts are
equal; and whenever it is non-positive every rate getter returns exactly 0, again
without a division by zero. -/
theorem rates_zero (s : THaScaler) (helicity trigger slot chan : Int)
    (which detector pmt : String) :
    (∃ t, GetTimeDiff s helicity = some t) ∧
      (s.use_clock = true →
        s.clockrate = 0 ∨ clockCount s helicity 0 = clockCount s helicity 1 →
          GetTimeDiff s helicity = some 0) ∧
      ((∀ t, GetTimeDiff s helicity = some t → t ≤ 0) →
        GetTrigRate s helicity trigger = some 0 ∧ GetBcmRate s helicity which = some 0 ∧
          GetPulserRate s helicity which = some 0 ∧ GetNormRate s helicity which = some 0 ∧
          GetNormRateChan s helicity chan = some 0) ∧
      ((∀ t, GetTimeDiff s 0 = some t → t ≤ 0) →
        GetScalerRate s slot chan = some 0 ∧
          GetScalerRateDet s detector pmt chan = some 0) := by
  refine ⟨GetTimeDiff_total s helicity, ?_, ?_, ?_⟩
  · intro hclk h
    by_cases hrate : s.clockrate = 0
    · unfold GetTimeDiff
      rw [hclk]
      simp [hrate]
    · rcases h with h | h
      · exact absurd h hrate
      · rw [GetTimeDiff_clock s helicity hclk hrate, h, isub_self]
        simp
  · intro h
    have ht := GetTimeDiff_total s helicity
    exact ⟨rateBody_of_nonpos _ _ _ h ht, rateBody_of_nonpos _ _ _ h ht,
      rateBody_of_nonpos _ _ _ h ht, rateBody_of_nonpos _ _ _ h ht,
      rateBody_of_nonpos _ _ _ h ht⟩
  · intro h
    have ht := GetTimeDiff_total s 0
    exact ⟨rateBody_of_nonpos _ _ _ h ht, rateBody_of_nonpos _ _ _ h ht⟩

/-- Witness for C7: clock counts 2048 and 1024 at rate 1024, "bcm_u1" counts 500 and 200. -/
theorem GetNormRate_eq_witness :
    GetTimeDiff (loadedState 2048 1024) 0 =
        some (((clockCount (loadedState 2048 1024) 0 0 -
          clockCount (loadedState 2048 1024) 0 1 : Int) : ℚ) /
            (loadedState 2048 1024).clockrate) ∧
      GetNormRate (loadedState 2048 1024) 0 "bcm_u1" =
        some (((GetNormData (loadedState 2048 1024) 0 "bcm_u1" 0 -
            GetNormData (loadedState 2048 1024) 0 "bcm_u1" 1 : Int) : ℚ) /
          (((clockCount (loadedState 2048 1024) 0 0 -
            clockCount (loadedState 2048 1024) 0 1 : Int) : ℚ) /
              (loadedState 2048 1024).clockrate)) :=
  GetNormRate_eq (loadedState 2048 1024) 0 "bcm_u1" rfl
    (by simp [loadedState, mk0]) (by decide) (by decide)
    (by
      rw [show clockCount (loadedState 2048 1024) 0 0 - clockCount (loadedState 2048 1024) 0 1
        = 1024 by decide]
      simp [loadedState, mk0])

/-- Witness for C8: the clock channel reads 2048 in both snapshots while "bcm_u1" went
from 200 to 500; elapsed time and the rates are 0. -/
theorem rates_zero_witness :
    GetTimeDiff (loadedState 2048 2048) 0 = some 0 ∧
      GetNormRate (loadedState 2048 2048) 0 "bcm_u1" = some 0 ∧
      GetScalerRate (loadedState 2048 2048) 4 3 = some 0 :=
  have h0 : GetTimeDiff (loadedState 2048 2048) 0 = some 0 :=
    (rates_zero (loadedState 2048 2048) 0 1 4 3 "bcm_u1" "s1" "LR").2.1 rfl
      (Or.inr (by decide))
  have hle : ∀ t, GetTimeDiff (loadedState 2048 2048) 0 = some t → t ≤ 0 := fun t ht => by
    rw [h0] at ht
    exact le_of_eq (Option.some.inj ht).symm
  ⟨h0, ((rates_zero (loadedState 2048 2048) 0 1 4 3 "bcm_u1" "s1" "LR").2.2.1 hle).2.2.2.1,
    ((rates_zero (loadedState 2048 2048) 0 1 4 3 "bcm_u1" "s1" "LR").2.2.2 hle).1⟩

theorem normFind_none_iff (m : List (String × Int)) (which : String) :
    normFind m which = none ↔ ∀ p, p ∈ m → p.1 ≠ which := by
  induction m with
  | nil => simp [normFind]
  | cons p rest ih =>
    obtain ⟨name, ch⟩ := p
    unfold normFind
    by_cases e : name = which
    · simp [e]
    · simp [e, ih]

theorem normFind_mem (m : List (String × Int)) (which : String) (ch : Int)
    (h : normFind m which = some ch) : (which, ch) ∈ m := by
  induction m with
  | nil => simp [normFind] at h
  | cons p rest ih =>
    obtain ⟨name, c⟩ := p
    unfold normFind at h
    by_cases e : name = which
    · rw [if_pos e] at h
      cases h
      rw [e]
      exact List.mem_cons_self _ _
    · rw [if_neg e] at h
      exact List.mem_cons_of_mem _ (ih h)

/-- Claim C9: `GetNormData(helicity, name, histor)` uses normalization slot index 1 for
helicity −1, 2 for helicity +1 and 0 otherwise; it returns 0 when the object was never
initialized, never loaded, the selected slot is negative, or the name is absent from
the map; in every other case it returns `GetScaler(normslot[index], ch, histor)` for the
channel `ch` that the map gives the name. -/
theorem GetNormData_cases (s : THaScaler) (helicity histor : Int) (which : String) :
    helIndex helicity = (if helicity = -1 then 1 else if helicity = 1 then 2 else 0) ∧
      (s.did_init = false → GetNormData s helicity which histor = 0) ∧
      (s.one_load = false → GetNormData s helicity which histor = 0) ∧
      (s.normslot (helIndex helicity) < 0 → GetNormData s helicity which histor = 0) ∧
      ((∀ p, p ∈ s.normmap → p.1 ≠ which) → GetNormData s helicity which histor = 0) ∧
      (s.did_init = true → s.one_load = true → 0 ≤ s.normslot (helIndex helicity) →
        (∃ p, p ∈ s.normmap ∧ p.1 = which) →
          ∃ ch, normFind s.normmap which = some ch ∧ (which, ch) ∈ s.normmap ∧
            GetNormData s helicity which histor =
              GetScaler s (s.normslot (helIndex helicity)) ch histor) := by
  refine ⟨?_, ?_, ?_, ?_, ?_, ?_⟩
  · unfold helIndex
    by_cases h1 : helicity = -1
    · subst h1
      decide
    · by_cases h2 : helicity = 1
      · subst h2
        decide
      · simp [h1, h2]
  · intro h
    unfold GetNormData
    simp [h]
  · intro h
    unfold GetNormData
    simp [h]
  · intro h
    unfold GetNormData
    simp [h]
  · intro h
    have hn := (normFind_none_iff s.normmap which).mpr h
    unfold GetNormData
    simp [hn]
  · intro hi hl hs ⟨p, hp, hpw⟩
    cases hf : normFind s.normmap which with
    | none => exact absurd hpw ((normFind_none_iff s.normmap which).mp hf p hp)
    | some ch =>
      refine ⟨ch, rfl, normFind_mem _ _ _ hf, ?_⟩
      unfold GetNormData
      simp [hi, hl, hf, not_lt.mpr hs]

/-- Witness for C9: the loaded object, helicity +1, name "bcm_u1" on channel 3. -/
theorem GetNormData_cases_witness :
    helIndex 1 = 2 ∧
      ∃ ch, normFind (loadedState 2048 1024).normmap "bcm_u1" = some ch ∧
        ("bcm_u1", ch) ∈ (loadedState 2048 1024).normmap ∧
        GetNormData (loadedState 2048 1024) 1 "bcm_u1" 0 =
          GetScaler (loadedState 2048 1024) ((loadedState 2048 1024).normslot (helIndex 1)) ch 0 :=
  ⟨(GetNormData_cases (loadedState 2048 1024) 1 0 "bcm_u1").1,
    (GetNormData_cases (loadedState 2048 1024) 1 0 "bcm_u1").2.2.2.2.2 rfl rfl (by decide)
      ⟨("bcm_u1", 3), by decide, rfl⟩⟩

/-- Claim C10, as stated, fails: two stores that agree on the current half give different
results for `GetScaler(12, 0, 0)`, which reads entry 0 of the previous half. -/
theorem GetScaler_reads_other_half :
    (∀ k, k < SCAL_NUMBANK * SCAL_NUMCHAN →
        current { mk0 "Left" 100005 with rawdata := fun k => if k = 384 then 5 else 0 } k =
          current (mk0 "Left" 100005) k) ∧
      GetScaler { mk0 "Left" 100005 with rawdata := fun k => if k = 384 then 5 else 0 } 12 0 0 ≠
        GetScaler (mk0 "Left" 100005) 12 0 0 := by
  refine ⟨?_, by decide⟩
  intro k hk
  have hk2 : k < 384 := hk
  rw [current_eq, current_eq]
  show (if (k : Int) = 384 then 5 else 0) = (0 : Int)
  rw [if_neg (by omega)]

theorem GetScaler_zero (s : THaScaler) (slot chan : Int) :
    GetScaler s slot chan 0 =
      if 0 ≤ wrap32 (32 * slot + chan) ∧ wrap32 (32 * slot + chan) < 768 then
        s.rawdata (wrap32 (32 * slot + chan))
      else 0 := by
  unfold GetScaler
  simp only [size2_cast, numchan_cast]
  rw [if_neg (show ¬ ((0 : Int) = 1) by decide)]

theorem GetScaler_one (s : THaScaler) (slot chan : Int) :
    GetScaler s slot chan 1 =
      if 0 ≤ wrap32 (wrap32 (32 * slot + chan) + 384) ∧
          wrap32 (wrap32 (32 * slot + chan) + 384) < 768 then
        s.rawdata (wrap32 (wrap32 (32 * slot + chan) + 384))
      else 0 := by
  unfold GetScaler
  simp only [size2_cast, numchan_cast, size_cast, if_true]

/-- Claim C10, amended: when the flat index `SCAL_NUMCHAN*slot + chan` (as an `Int_t`) is
outside 384..767, `GetScaler(slot, chan, 0)` depends only on the current half; when it is
outside −384..−1, `GetScaler(slot, chan, 1)` depends only on the previous half; for
in-range slot and channel they return `current[slot*SCAL_NUMCHAN+chan]` and
`previous[slot*SCAL_NUMCHAN+chan]`. -/
theorem GetScaler_half (s1 s2 : THaScaler) (slot chan : Int) :
    (¬ (384 ≤ wrap32 (32 * slot + chan) ∧ wrap32 (32 * slot + chan) < 768) →
        (∀ k, k < SCAL_NUMBANK * SCAL_NUMCHAN → current s1 k = current s2 k) →
          GetScaler s1 slot chan 0 = GetScaler s2 slot chan 0) ∧
      (¬ (-384 ≤ wrap32 (32 * slot + chan) ∧ wrap32 (32 * slot + chan) < 0) →
        (∀ k, k < SCAL_NUMBANK * SCAL_NUMCHAN → previous s1 k = previous s2 k) →
          GetScaler s1 slot chan 1 = GetScaler s2 slot chan 1) ∧
      (0 ≤ slot ∧ slot < SCAL_NUMBANK → 0 ≤ chan ∧ chan < SCAL_NUMCHAN →
        GetScaler s1 slot chan 0 = current s1 (slot * SCAL_NUMCHAN + chan).toNat ∧
          GetScaler s1 slot chan 1 = previous s1 (slot * SCAL_NUMCHAN + chan).toNat) := by
  refine ⟨?_, ?_, ?_⟩
  · intro hout hagree
    rw [GetScaler_zero, GetScaler_zero]
    by_cases c : 0 ≤ wrap32 (32 * slot + chan) ∧ wrap32 (32 * slot + chan) < 768
    · rw [if_pos c, if_pos c]
      have h := hagree (wrap32 (32 * slot + chan)).toNat (by rw [size_nat]; omega)
      rw [current_eq, current_eq, Int.toNat_of_nonneg c.1] at h
      exact h
    · rw [if_neg c, if_neg c]
  · intro hout hagree
    rw [GetScaler_one, GetScaler_one]
    by_cases c : 0 ≤ wrap32 (wrap32 (32 * slot + chan) + 384) ∧
        wrap32 (wrap32 (32 * slot + chan) + 384) < 768
    · rw [if_pos c, if_pos c]
      have hw : wrap32 (wrap32 (32 * slot + chan) + 384) = wrap32 (32 * slot + chan) + 384 := by
        unfold wrap32 at c hout ⊢
        omega
      rw [hw] at c ⊢
      have h := hagree (wrap32 (32 * slot + chan)).toNat (by rw [size_nat]; omega)
      rw [previous_eq, previous_eq, Int.toNat_of_nonneg (by omega)] at h
      exact h
    · rw [if_neg c, if_neg c]
  · intro hs hc
    have hs2 : slot < 12 := hs.2
    have hc2 : chan < 32 := hc.2
    have e : wrap32 (32 * slot + chan) = 32 * slot + chan := by
      unfold wrap32
      omega
    have e2 : wrap32 (32 * slot + chan + 384) = 32 * slot + chan + 384 := by
      unfold wrap32
      omega
    rw [GetScaler_zero, GetScaler_one, e, e2, if_pos (by omega), if_pos (by omega), current_eq,
      previous_eq, numchan_cast, Int.toNat_of_nonneg (by omega)]
    constructor
    · congr 1
      omega
    · congr 1
      omega

/-- Witness for the amended C10: slot 4, channel 7 of the loaded object against a store
with another previous half, and against one with another current half. -/
theorem GetScaler_half_witness :
    GetScaler (loadedState 2048 1024) 4 7 0 =
        GetScaler { loadedState 2048 1024 with
          rawdata := fun k => if k < 384 then (loadedState 2048 1024).rawdata k else 99 } 4 7 0 ∧
      GetScaler (loadedState 2048 1024) 4 7 1 =
        GetScaler { loadedState 2048 1024 with
          rawdata := fun k => if k < 384 then 99 else (loadedState 2048 1024).rawdata k } 4 7 1 ∧
      GetScaler (loadedState 2048 1024) 4 7 0 =
        current (loadedState 2048 1024) ((4 : Int) * SCAL_NUMCHAN + 7).toNat ∧
      GetScaler (loadedState 2048 1024) 4 7 1 =
        previous (loadedState 2048 1024) ((4 : Int) * SCAL_NUMCHAN + 7).toNat :=
  ⟨(GetScaler_half (loadedState 2048 1024)
      { loadedState 2048 1024 with
        rawdata := fun k => if k < 384 then (loadedState 2048 1024).rawdata k else 99 } 4 7).1
      (by decide)
      (fun k hk => by
        have hk2 : k < 384 := hk
        simp only [current]
        rw [if_pos (by omega)]),
    (GetScaler_half (loadedState 2048 1024)
      { loadedState 2048 1024 with
        rawdata := fun k => if k < 384 then 99 else (loadedState 2048 1024).rawdata k } 4 7).2.1
      (by decide)
      (fun k hk => by
        simp only [previous, size_cast]
        rw [if_neg (by omega)]),
    (GetScaler_half (loadedState 2048 1024) (loadedState 2048 1024) 4 7).2.2 (by decide)
      (by decide)⟩

/-! ## Initialization and file loading -/

theorem bankOfName_unknown (b : Bool) (bankgroup : String) (hu : unknownBank bankgroup) :
    bankOfName b bankgroup = "unknown" := by
  obtain ⟨h1, h2, h3, h4, h5, h6, h7, h8⟩ := hu
  cases b
  · rfl
  · unfold bankOfName
    simp [h1, h2, h3, h4, h5, h6, h7, h8]

theorem swapBank_unknown (d : Bdate) : swapBank "unknown" d = "unknown" := by
  unfold swapBank
  cases d.before dswap
  · rfl
  · simp

theorem loadRows_unknown (s : THaScaler) : datamap.foldl (loadRow "unknown") s = s := by
  simp [datamap, loadRow]

theorem InitData_unknown (s : THaScaler) (bankgroup : String) (d : Bdate)
    (hu : unknownBank bankgroup) :
    (InitData s bankgroup d).1 = 0 ∧ (InitData s bankgroup d).2.crate = -1 ∧
      (InitData s bankgroup d).2.did_init = s.did_init ∧
      (InitData s bankgroup d).2.database = s.database := by
  unfold InitData
  simp [bankOfName_unknown _ _ hu, swapBank_unknown, loadRows_unknown]

theorem SetupNormMap_keeps (s : THaScaler) :
    (SetupNormMap s).crate = s.crate ∧ (SetupNormMap s).did_init = s.did_init := by
  unfold SetupNormMap
  cases s.database <;> exact ⟨rfl, rfl⟩

theorem GetNormData_uninit (u : THaScaler) (hu : u.did_init = false) (h : Int) (w : String)
    (hist : Int) : GetNormData u h w hist = 0 := by
  unfold GetNormData
  simp [hu]

theorem rateBody_zero (e : Option ℚ) (he : ∃ t, e = some t) : rateBody e 0 0 = some 0 := by
  obtain ⟨t, rfl⟩ := he
  unfold rateBody
  simp only
  split
  · rename_i ht
    rw [isub_self, fdiv_of_ne _ _ (ne_of_gt ht)]
    simp
  · rfl

/-- Claim C11, as stated, fails: for the unknown bank group "zzz" `InitData` returns 0,
and with a successful database extraction `Init` returns 0 and leaves the object
initialized, with the crate undefined. -/
theorem Init_accepts_unknown_bank :
    unknownBank "zzz" ∧
      (InitData { mk0 "zzz" 100005 with database := some emptyDB } "zzz" ⟨21, 5, 1999⟩).1 = 0 ∧
      (Init (mk0 "zzz" 100005) "21-05-1999" ⟨1, 1, 2020⟩ emptyDB true).1 = 0 ∧
      (Init (mk0 "zzz" 100005) "21-05-1999" ⟨1, 1, 2020⟩ emptyDB true).2.did_init = true ∧
      (Init (mk0 "zzz" 100005) "21-05-1999" ⟨1, 1, 2020⟩ emptyDB true).2.crate = -1 := by
  refine ⟨?_, by decide, by decide, by decide, by decide⟩
  unfold unknownBank
  decide

/-- Claim C11, amended: for a bank-group name that matches none of the aliases the crate
stays undefined (−1) but `InitData` still returns 0, the undefined crate being only
warned about; `Init` then returns 0 with `did_init` true when the database extraction
succeeds, and −1 with `did_init` unchanged when it fails; and an object with `did_init`
false answers 0 to every name-based count query and to `GetNormRate`. -/
theorem Init_unknown_bank (s : THaScaler) (thetime : String) (today date : Bdate)
    (db : THaScalerDB) (extract_ok : Bool) (hp : parseDate thetime today = some date)
    (hu : unknownBank s.bankgroup) :
    (InitData { s with database := some db } s.bankgroup date).1 = 0 ∧
      (InitData { s with database := some db } s.bankgroup date).2.crate = -1 ∧
      (Init s thetime today db extract_ok).2.crate = -1 ∧
      (extract_ok = true →
        (Init s thetime today db extract_ok).1 = 0 ∧
          (Init s thetime today db extract_ok).2.did_init = true) ∧
      (extract_ok = false →
        (Init s thetime today db extract_ok).1 = -1 ∧
          (Init s thetime today db extract_ok).2.did_init = s.did_init) ∧
      (∀ (u : THaScaler) (h chan hist : Int) (w det pm : String), u.did_init = false →
        GetNormData u h w hist = 0 ∧ GetNormDataChan u h chan hist = 0 ∧
          GetTrig u h chan hist = 0 ∧ GetBcm u h w hist = 0 ∧ GetPulser u h w hist = 0 ∧
          GetScalerDet u det pm chan hist = 0 ∧ GetNormRate u h w = some 0) := by
  have hi := InitData_unknown { s with database := some db } s.bankgroup date hu
  have hne : ¬ (InitData { s with database := some db } s.bankgroup date).1 = SCAL_ERROR := by
    rw [hi.1]
    decide
  have hInit : Init s thetime today db extract_ok =
      if extract_ok = false then
        (-1, { (InitData { s with database := some db } s.bankgroup date).2 with
          database := none })
      else
        (0, { SetupNormMap (InitData { s with database := some db } s.bankgroup date).2 with
          did_init := true }) := by
    unfold Init
    rw [hp]
    simp only
    rw [if_neg hne]
  refine ⟨hi.1, hi.2.1, ?_, ?_, ?_, ?_⟩
  · rw [hInit]
    cases extract_ok
    · exact hi.2.1
    · exact (SetupNormMap_keeps _).1.trans hi.2.1
  · intro he
    rw [hInit, he]
    exact ⟨rfl, rfl⟩
  · intro he
    rw [hInit, he]
    exact ⟨rfl, hi.2.2.1⟩
  · intro u h chan hist w det pm hud
    refine ⟨GetNormData_uninit u hud _ _ _, ?_, GetNormData_uninit u hud _ _ _,
      GetNormData_uninit u hud _ _ _, GetNormData_uninit u hud _ _ _, ?_, ?_⟩
    · unfold GetNormDataChan
      simp [hud]
    · unfold GetScalerDet
      simp [hud]
    · unfold GetNormRate
      rw [GetNormData_uninit u hud, GetNormData_uninit u hud]
      exact rateBody_zero _ (GetTimeDiff_total u h)

/-- Witness for the amended C11: bank group "zzz", date 21-05-1999, extraction failing and
succeeding. -/
theorem Init_unknown_bank_witness :
    (Init (mk0 "zzz" 100005) "21-05-1999" ⟨1, 1, 2020⟩ emptyDB false).2.crate = -1 ∧
      (Init (mk0 "zzz" 100005) "21-05-1999" ⟨1, 1, 2020⟩ emptyDB false).1 = -1 ∧
      (Init (mk0 "zzz" 100005) "21-05-1999" ⟨1, 1, 2020⟩ emptyDB false).2.did_init = false ∧
      (Init (mk0 "zzz" 100005) "21-05-1999" ⟨1, 1, 2020⟩ emptyDB true).1 = 0 ∧
      (Init (mk0 "zzz" 100005) "21-05-1999" ⟨1, 1, 2020⟩ emptyDB true).2.did_init = true :=
  have hu : unknownBank (mk0 "zzz" 100005).bankgroup := by
    unfold unknownBank
    decide
  ⟨(Init_unknown_bank (mk0 "zzz" 100005) "21-05-1999" ⟨1, 1, 2020⟩ ⟨21, 5, 1999⟩ emptyDB false
      rfl hu).2.2.1,
    ((Init_unknown_bank (mk0 "zzz" 100005) "21-05-1999" ⟨1, 1, 2020⟩ ⟨21, 5, 1999⟩ emptyDB false
      rfl hu).2.2.2.2.1 rfl).1,
    ((Init_unknown_bank (mk0 "zzz" 100005) "21-05-1999" ⟨1, 1, 2020⟩ ⟨21, 5, 1999⟩ emptyDB false
      rfl hu).2.2.2.2.1 rfl).2,
    ((Init_unknown_bank (mk0 "zzz" 100005) "21-05-1999" ⟨1, 1, 2020⟩ ⟨21, 5, 1999⟩ emptyDB true
      rfl hu).2.2.2.1 rfl).1,
    ((Init_unknown_bank (mk0 "zzz" 100005) "21-05-1999" ⟨1, 1, 2020⟩ ⟨21, 5, 1999⟩ emptyDB true
      rfl hu).2.2.2.1 rfl).2⟩

theorem run_ite {α : Type} (c : Prop) [Decidable c] (a b : Method α) (s : THaScaler) :
    (if c then a else b).run s = if c then a.run s else b.run s := by
  split <;> rfl

theorem GetScalerM_run (s : THaScaler) (slot chan histor : Int) :
    (GetScalerM slot chan histor).run s = (GetScaler s slot chan histor, s) := by
  unfold GetScalerM GetScaler
  simp only [run_ite, StateT.run_bind, StateT.run_get, StateT.run_pure, Id.bind_eq, Id.pure_eq]
  split_ifs <;> rfl

theorem GetSlotM_run (s : THaScaler) (detector : String) (helicity : Int) :
    (GetSlotM detector helicity).run s = (GetSlot s detector helicity, s) := by
  unfold GetSlotM GetSlot
  simp only [StateT.run_bind, StateT.run_get, Id.bind_eq, Id.pure_eq]
  cases s.database <;> rfl

theorem GetChanM_run (s : THaScaler) (detector : String) (helicity chan : Int) :
    (GetChanM detector helicity chan).run s = (GetChan s detector helicity chan, s) := by
  unfold GetChanM GetChan
  simp only [StateT.run_bind, StateT.run_get, Id.bind_eq, Id.pure_eq]
  cases s.database <;> rfl

theorem GetScalerDetM_run (s : THaScaler) (det pm : String) (chan histor : Int) :
    (GetScalerDetM det pm chan histor).run s = (GetScalerDet s det pm chan histor, s) := by
  unfold GetScalerDetM GetScalerDet
  simp only [run_ite, StateT.run_bind, StateT.run_get, StateT.run_pure, Id.bind_eq, Id.pure_eq,
    GetSlotM_run, GetChanM_run, GetScalerM_run]
  split_ifs <;> rfl

theorem GetNormDataM_run (s : THaScaler) (helicity : Int) (which : String) (histor : Int) :
    (GetNormDataM helicity which histor).run s = (GetNormData s helicity which histor, s) := by
  unfold GetNormDataM GetNormData
  simp only [run_ite, StateT.run_bind, StateT.run_get, StateT.run_pure, Id.bind_eq, Id.pure_eq]
  cases normFind s.normmap which with
  | none => split_ifs <;> rfl
  | some ch =>
    simp only [StateT.run_bind, StateT.run_get, Id.bind_eq, GetScalerM_run]
    split_ifs <;> rfl

theorem GetNormDataChanM_run (s : THaScaler) (helicity chan histor : Int) :
    (GetNormDataChanM helicity chan histor).run s =
      (GetNormDataChan s helicity chan histor, s) := by
  unfold GetNormDataChanM GetNormDataChan
  simp only [run_ite, StateT.run_bind, StateT.run_get, StateT.run_pure, Id.bind_eq, Id.pure_eq,
    GetScalerM_run]
  split_ifs <;> rfl

theorem GetTrigM_run (s : THaScaler) (helicity trig histor : Int) :
    (GetTrigM helicity trig histor).run s = (GetTrig s helicity trig histor, s) := by
  unfold GetTrigM GetTrig
  exact GetNormDataM_run s helicity _ histor

theorem GetBcmM_run (s : THaScaler) (helicity : Int) (which : String) (histor : Int) :
    (GetBcmM helicity which histor).run s = (GetBcm s helicity which histor, s) := by
  unfold GetBcmM GetBcm
  exact GetNormDataM_run s helicity which histor

theorem GetPulserM_run (s : THaScaler) (helicity : Int) (which : String) (histor : Int) :
    (GetPulserM helicity which histor).run s = (GetPulser s helicity which histor, s) := by
  unfold GetPulserM GetPulser
  exact GetNormDataM_run s helicity which histor

theorem GetTimeDiffM_run (s : THaScaler) (helicity : Int) :
    (GetTimeDiffM helicity).run s = (GetTimeDiff s helicity, s) := by
  unfold GetTimeDiffM GetTimeDiff
  simp only [run_ite, StateT.run_bind, StateT.run_get, StateT.run_pure, Id.bind_eq, Id.pure_eq,
    GetScalerM_run, GetNormDataM_run]
  split_ifs <;> rfl

theorem rateBodyM_run (s : THaScaler) (etime : Method (Option ℚ)) (cur prev : Method Int)
    (e : Option ℚ) (c p : Int) (he : etime.run s = (e, s)) (hc : cur.run s = (c, s))
    (hp : prev.run s = (p, s)) :
    (rateBodyM etime cur prev).run s = (rateBody e c p, s) := by
  unfold rateBodyM rateBody
  simp only [StateT.run_bind, he, Id.bind_eq, Id.pure_eq]
  cases e with
  | none => rfl
  | some t =>
    simp only [run_ite, StateT.run_bind, StateT.run_pure, hc, hp, Id.bind_eq, Id.pure_eq]
    split_ifs <;> rfl

theorem GetScalerRateM_run (s : THaScaler) (slot chan : Int) :
    (GetScalerRateM slot chan).run s = (GetScalerRate s slot chan, s) :=
  rateBodyM_run s _ _ _ _ _ _ (GetTimeDiffM_run s 0) (GetScalerM_run s slot chan 0)
    (GetScalerM_run s slot chan 1)

theorem GetScalerRateDetM_run (s : THaScaler) (detector pmt : String) (chan : Int) :
    (GetScalerRateDetM detector pmt chan).run s = (GetScalerRateDet s detector pmt chan, s) :=
  rateBodyM_run s _ _ _ _ _ _ (GetTimeDiffM_run s 0) (GetScalerDetM_run s detector pmt chan 0)
    (GetScalerDetM_run s detector pmt chan 1)

theorem GetTrigRateM_run (s : THaScaler) (helicity trigger : Int) :
    (GetTrigRateM helicity trigger).run s = (GetTrigRate s helicity trigger, s) :=
  rateBodyM_run s _ _ _ _ _ _ (GetTimeDiffM_run s helicity) (GetTrigM_run s helicity trigger 0)
    (GetTrigM_run s helicity trigger 1)

theorem GetBcmRateM_run (s : THaScaler) (helicity : Int) (which : String) :
    (GetBcmRateM helicity which).run s = (GetBcmRate s helicity which, s) :=
  rateBodyM_run s _ _ _ _ _ _ (GetTimeDiffM_run s helicity) (GetBcmM_run s helicity which 0)
    (GetBcmM_run s helicity which 1)

theorem GetPulserRateM_run (s : THaScaler) (helicity : Int) (which : String) :
    (GetPulserRateM helicity which).run s = (GetPulserRate s helicity which, s) :=
  rateBodyM_run s _ _ _ _ _ _ (GetTimeDiffM_run s helicity) (GetPulserM_run s helicity which 0)
    (GetPulserM_run s helicity which 1)

theorem GetNormRateM_run (s : THaScaler) (helicity : Int) (which : String) :
    (GetNormRateM helicity which).run s = (GetNormRate s helicity which, s) :=
  rateBodyM_run s _ _ _ _ _ _ (GetTimeDiffM_run s helicity)
    (GetNormDataM_run s helicity which 0) (GetNormDataM_run s helicity which 1)

theorem GetNormRateChanM_run (s : THaScaler) (helicity chan : Int) :
    (GetNormRateChanM helicity chan).run s = (GetNormRateChan s helicity chan, s) :=
  rateBodyM_run s _ _ _ _ _ _ (GetTimeDiffM_run s helicity)
    (GetNormDataChanM_run s helicity chan 0) (GetNormDataChanM_run s helicity chan 1)

theorem runCall_run (s : THaScaler) (c : Call) : (runCall c).run s = ((), s) := by
  cases c <;> unfold runCall <;>
    simp only [StateT.run_bind, GetScalerM_run, GetScalerDetM_run, GetNormDataM_run,
      GetNormDataChanM_run, GetTrigM_run, GetBcmM_run, GetPulserM_run, GetTimeDiffM_run,
      GetScalerRateM_run, GetScalerRateDetM_run, GetTrigRateM_run, GetBcmRateM_run,
      GetPulserRateM_run, GetNormRateM_run, GetNormRateChanM_run, Id.bind_eq, Id.pure_eq] <;>
    rfl

theorem callAll_run (s : THaScaler) (qs : List Call) : (callAll qs).run s = ((), s) := by
  induction qs with
  | nil => rfl
  | cons c rest ih =>
    unfold callAll
    simp only [StateT.run_bind, runCall_run, Id.bind_eq]
    exact ih

theorem again_run {α β : Type} (s : THaScaler) (m : Method α) (between : Method β)
    (v : α) (w : β) (hm : m.run s = (v, s)) (hb : between.run s = (w, s)) :
    (again m between).run s = ((v, v), s) := by
  unfold again
  simp only [StateT.run_bind, hm, hb, Id.bind_eq, Id.pure_eq]
  rfl

/-- An extraction between two reads is seen by the second read: on a fresh object with
header pattern 0xabc00000, channel 0 of slot 6 reads 0 before and 0x11 after the buffer
`[2, 0xabc60001, 0x11]` is extracted, and the object is no longer the one before. -/
theorem extraction_between_reads :
    ((again (GetScalerM 6 0 0) (ExtractRawM (some [2, toInt32 0xabc60001, 0x11]) 0)).run
        { mk0 "Left" 100005 with header := 0xabc00000 }).1 = (0, 0x11) ∧
      ((ExtractRawM (some [2, toInt32 0xabc60001, 0x11]) 0).run
        { mk0 "Left" 100005 with header := 0xabc00000 }).2.one_load = true ∧
      ({ mk0 "Left" 100005 with header := 0xabc00000 } : THaScaler).one_load = false := by
  refine ⟨?_, by decide, by decide⟩
  decide

/-- Claim C13: each count and rate getter body, run on any object with any arguments,
returns the value of the getter and leaves the object as it was; so does any sequence of
getter calls; and a rate getter called, followed by any sequence of getter calls (none
for two calls in a row), and called again with the same arguments returns the same value
both times, the object still being as it was. -/
theorem getters_leave_object_unchanged (s : THaScaler) (slot chan histor helicity trig : Int)
    (det pm which : String) (qs : List Call) :
    (GetScalerM slot chan histor).run s = (GetScaler s slot chan histor, s) ∧
      (GetScalerDetM det pm chan histor).run s = (GetScalerDet s det pm chan histor, s) ∧
      (GetNormDataM helicity which histor).run s = (GetNormData s helicity which histor, s) ∧
      (GetNormDataChanM helicity chan histor).run s =
        (GetNormDataChan s helicity chan histor, s) ∧
      (GetTrigM helicity trig histor).run s = (GetTrig s helicity trig histor, s) ∧
      (GetBcmM helicity which histor).run s = (GetBcm s helicity which histor, s) ∧
      (GetPulserM helicity which histor).run s = (GetPulser s helicity which histor, s) ∧
      (GetTimeDiffM helicity).run s = (GetTimeDiff s helicity, s) ∧
      (GetScalerRateM slot chan).run s = (GetScalerRate s slot chan, s) ∧
      (GetScalerRateDetM det pm chan).run s = (GetScalerRateDet s det pm chan, s) ∧
      (GetTrigRateM helicity trig).run s = (GetTrigRate s helicity trig, s) ∧
      (GetBcmRateM helicity which).run s = (GetBcmRate s helicity which, s) ∧
      (GetPulserRateM helicity which).run s = (GetPulserRate s helicity which, s) ∧
      (GetNormRateM helicity which).run s = (GetNormRate s helicity which, s) ∧
      (GetNormRateChanM helicity chan).run s = (GetNormRateChan s helicity chan, s) ∧
      (callAll qs).run s = ((), s) ∧
      (again (GetTimeDiffM helicity) (callAll qs)).run s =
        ((GetTimeDiff s helicity, GetTimeDiff s helicity), s) ∧
      (again (GetScalerRateM slot chan) (callAll qs)).run s =
        ((GetScalerRate s slot chan, GetScalerRate s slot chan), s) ∧
      (again (GetScalerRateDetM det pm chan) (callAll qs)).run s =
        ((GetScalerRateDet s det pm chan, GetScalerRateDet s det pm chan), s) ∧
      (again (GetTrigRateM helicity trig) (callAll qs)).run s =
        ((GetTrigRate s helicity trig, GetTrigRate s helicity trig), s) ∧
      (again (GetBcmRateM helicity which) (callAll qs)).run s =
        ((GetBcmRate s helicity which, GetBcmRate s helicity which), s) ∧
      (again (GetPulserRateM helicity which) (callAll qs)).run s =
        ((GetPulserRate s helicity which, GetPulserRate s helicity which), s) ∧
      (again (GetNormRateM helicity which) (callAll qs)).run s =
        ((GetNormRate s helicity which, GetNormRate s helicity which), s) ∧
      (again (GetNormRateChanM helicity chan) (callAll qs)).run s =
        ((GetNormRateChan s helicity chan, GetNormRateChan s helicity chan), s) :=
  ⟨GetScalerM_run s slot chan histor, GetScalerDetM_run s det pm chan histor,
    GetNormDataM_run s helicity which histor, GetNormDataChanM_run s helicity chan histor,
    GetTrigM_run s helicity trig histor, GetBcmM_run s helicity which histor,
    GetPulserM_run s helicity which histor, GetTimeDiffM_run s helicity,
    GetScalerRateM_run s slot chan, GetScalerRateDetM_run s det pm chan,
    GetTrigRateM_run s helicity trig, GetBcmRateM_run s helicity which,
    GetPulserRateM_run s helicity which, GetNormRateM_run s helicity which,
    GetNormRateChanM_run s helicity chan, callAll_run s qs,
    again_run s _ _ _ _ (GetTimeDiffM_run s helicity) (callAll_run s qs),
    again_run s _ _ _ _ (GetScalerRateM_run s slot chan) (callAll_run s qs),
    again_run s _ _ _ _ (GetScalerRateDetM_run s det pm chan) (callAll_run s qs),
    again_run s _ _ _ _ (GetTrigRateM_run s helicity trig) (callAll_run s qs),
    again_run s _ _ _ _ (GetBcmRateM_run s helicity which) (callAll_run s qs),
    again_run s _ _ _ _ (GetPulserRateM_run s helicity which) (callAll_run s qs),
    again_run s _ _ _ _ (GetNormRateM_run s helicity which) (callAll_run s qs),
    again_run s _ _ _ _ (GetNormRateChanM_run s helicity chan) (callAll_run s qs)⟩

/-! ## The two access paths of process -/

/-- Claim C14, as stated, fails: for a module in mode 10 holding two samples, with the
generic queries answering what the module answers, the direct path reads nothing and
the generic path reads the two samples. -/
theorem process_paths_differ :
    (eventOf (fadcOf 10 2 0)).GetEvType = MYTYPE ∧
      process 1 (eventOf (fadcOf 10 2 0)) = [] ∧
      process 0 (eventOf (fadcOf 10 2 0)) =
        [(.kSampleADC, 0, 100), (.kSampleADC, 1, 101)] := by
  refine ⟨rfl, rfl, rfl⟩

theorem readLoop_congr (kind : EModuleType) (n m : Int) (f g : Int → Int) (hn : n = m)
    (hf : ∀ i, f i = g i) : readLoop kind n f = readLoop kind m g := by
  subst hn
  have : f = g := funext hf
  rw [this]

theorem readLoop_nonpos (kind : EModuleType) (n : Int) (f : Int → Int) (hn : n ≤ 0) :
    readLoop kind n f = [] := by
  unfold readLoop
  rw [Int.toNat_eq_zero.mpr hn]
  rfl

/-- Claim C14, amended: for an event of the configured type whose generic queries answer
what the module at (crate, slot) answers, and a module that holds samples only in mode 1
or 8 and pulse integrals only in mode 7, the samples read through the direct module
handle are the samples read through the generic query, in the same order. -/
theorem process_paths_agree (use_module : Int) (evdata : THaEvData) (fadc : Module)
    (hmod : use_module ≠ 0) (hag : genericAgrees evdata fadc)
    (hs : fadc.GetMode = 1 ∨ fadc.GetMode = 8 ∨ fadc.GetNumEvents .kSampleADC MYCHAN ≤ 0)
    (hp : fadc.GetMode = 7 ∨ fadc.GetNumEvents .kPulseIntegral MYCHAN ≤ 0) :
    process use_module evdata = process 0 evdata := by
  obtain ⟨hm, hq⟩ := hag
  unfold process
  by_cases ht : evdata.GetEvType ≠ MYTYPE
  · rw [if_pos ht, if_pos ht]
  · rw [if_neg ht, if_neg ht, if_pos hmod, if_neg (by decide), hm]
    simp only
    rw [readLoop_congr .kSampleADC _ _ _ _ (hq .kSampleADC).1 (hq .kSampleADC).2,
      readLoop_congr .kPulseIntegral _ _ _ _ (hq .kPulseIntegral).1 (hq .kPulseIntegral).2]
    congr 1
    · by_cases c : fadc.GetMode = 1 ∨ fadc.GetMode = 8
      · rw [if_pos c]
      · rw [if_neg c]
        rcases hs with h | h | h
        · exact absurd (Or.inl h) c
        · exact absurd (Or.inr h) c
        · exact (readLoop_nonpos _ _ _ h).symm
    · by_cases c : fadc.GetMode = 7
      · rw [if_pos c]
      · rw [if_neg c]
        rcases hp with h | h
        · exact absurd h c
        · exact (readLoop_nonpos _ _ _ h).symm

/-- Witness for the amended C14: a module in mode 1 holding three samples and no pulse
integral. -/
theorem process_paths_agree_witness :
    process 1 (eventOf (fadcOf 1 3 0)) = process 0 (eventOf (fadcOf 1 3 0)) ∧
      process 1 (eventOf (fadcOf 1 3 0)) =
        [(.kSampleADC, 0, 100), (.kSampleADC, 1, 101), (.kSampleADC, 2, 102)] :=
  ⟨process_paths_agree 1 (eventOf (fadcOf 1 3 0)) (fadcOf 1 3 0) (by decide)
      ⟨rfl, fun kind => ⟨rfl, fun _ => rfl⟩⟩ (Or.inl rfl) (Or.inr (by decide)), rfl⟩


/-! ## Clock source and time interval -/

/-- Claim C16: after `SetClockLoc(slot, chan)` with `slot != -1` and `chan != -1`, in clock
mode with non-zero clock rate, `GetTimeDiff(helicity)` is
(`GetScaler(slot,chan,0)` − `GetScaler(slot,chan,1)`) / clockrate for every helicity, the
difference being the `Int_t` difference; the normalization map and the normalization
slots play no part. -/
theorem GetTimeDiff_clock_loc (s : THaScaler) (slot chan helicity : Int)
    (normmap : List (String × Int)) (normslot : Nat → Int)
    (hslot : slot ≠ -1) (hchan : chan ≠ -1) (hclk : s.use_clock = true)
    (hrate : s.clockrate ≠ 0) :
    GetTimeDiff (SetClockLoc s slot chan) helicity =
        some (((isub (GetScaler s slot chan 0) (GetScaler s slot chan 1) : Int) : ℚ) /
          s.clockrate) ∧
      GetTimeDiff (SetClockLoc { s with normmap := normmap, normslot := normslot } slot chan)
          helicity = GetTimeDiff (SetClockLoc s slot chan) helicity ∧
      (-2147483648 ≤ GetScaler s slot chan 0 - GetScaler s slot chan 1 ∧
          GetScaler s slot chan 0 - GetScaler s slot chan 1 < 2147483648 →
        GetTimeDiff (SetClockLoc s slot chan) helicity =
          some (((GetScaler s slot chan 0 - GetScaler s slot chan 1 : Int) : ℚ) /
            s.clockrate)) := by
  have key : ∀ u : THaScaler, u.use_clock = true → u.clockrate ≠ 0 →
      GetTimeDiff (SetClockLoc u slot chan) helicity =
        some (((isub (GetScaler u slot chan 0) (GetScaler u slot chan 1) : Int) : ℚ) /
          u.clockrate) := by
    intro u hu hr
    unfold GetTimeDiff SetClockLoc
    simp only [hu, Bool.not_true, Bool.false_eq_true, if_false, if_neg hr, if_neg hslot]
    rw [if_pos ⟨hslot, hchan⟩]
    exact fdiv_of_ne _ _ hr
  refine ⟨key s hclk hrate, ?_, ?_⟩
  · rw [key s hclk hrate, key { s with normmap := normmap, normslot := normslot } hclk hrate]
    rfl
  · intro hfit
    rw [key s hclk hrate, isub_of_fits _ _ hfit]

/-- Witness for C16: the loaded object with the clock moved to slot 4, channel 3, which
counts 500 and 200. -/
theorem GetTimeDiff_clock_loc_witness :
    GetTimeDiff (SetClockLoc (loadedState 2048 1024) 4 3) 1 =
      some (((GetScaler (loadedState 2048 1024) 4 3 0 -
        GetScaler (loadedState 2048 1024) 4 3 1 : Int) : ℚ) /
          (loadedState 2048 1024).clockrate) :=
  (GetTimeDiff_clock_loc (loadedState 2048 1024) 4 3 1 [] (fun _ => 0) (by decide) (by decide)
    rfl (by simp [loadedState, mk0])).2.2 (by decide)

theorem InitData_keeps_interval (s : THaScaler) (bankgroup : String) (date : Bdate)
    (hclk : s.use_clock = false) :
    (InitData s bankgroup date).2.use_clock = false ∧
      (InitData s bankgroup date).2.clockrate = s.clockrate := by
  have hrow : ∀ (b : String) (rows : List DataMap) (u : THaScaler), u.use_clock = false →
      (rows.foldl (loadRow b) u).use_clock = false ∧
        (rows.foldl (loadRow b) u).clockrate = u.clockrate := by
    intro b rows
    induction rows with
    | nil =>
      intro u _
      exact ⟨by assumption, rfl⟩
    | cons it rest ih =>
      intro u hu
      rw [List.foldl_cons]
      have h1 : (loadRow b u it).use_clock = false ∧ (loadRow b u it).clockrate = u.clockrate := by
        unfold loadRow
        split
        · simp [hu]
        · exact ⟨hu, rfl⟩
      exact ⟨(ih _ h1.1).1, (ih _ h1.1).2.trans h1.2⟩
  unfold InitData
  exact hrow _ _ _ hclk

/-- Claim C17: after `SetTimeInterval(t)` with `t > 0`, `GetTimeDiff(helicity)` is
`1/clockrate = t` for every helicity and every store content, and a later `InitData`
keeps the configured rate instead of the bank's default clock rate. -/
theorem GetTimeDiff_interval (s : THaScaler) (t : ℚ) (helicity : Int) (raw : Int → Int)
    (bankgroup : String) (date : Bdate) (ht : 0 < t) :
    (SetTimeInterval s t).clockrate = 1 / t ∧
      GetTimeDiff (SetTimeInterval s t) helicity = some t ∧
      GetTimeDiff { SetTimeInterval s t with rawdata := raw } helicity = some t ∧
      (InitData (SetTimeInterval s t) bankgroup date).2.clockrate = 1 / t ∧
      GetTimeDiff (InitData (SetTimeInterval s t) bankgroup date).2 helicity = some t := by
  have hs : SetTimeInterval s t = { s with clockrate := 1 / t, use_clock := false } := by
    unfold SetTimeInterval
    rw [if_neg (not_le.mpr ht)]
  have hne : (1 : ℚ) / t ≠ 0 := one_div_ne_zero (ne_of_gt ht)
  have key : ∀ u : THaScaler, u.use_clock = false → u.clockrate = 1 / t →
      GetTimeDiff u helicity = some t := by
    intro u hu hr
    unfold GetTimeDiff
    rw [hu, hr]
    simp only [Bool.not_false, if_true]
    rw [if_pos hne, fdiv_of_ne _ _ hne, one_div_one_div]
  have hi := InitData_keeps_interval (SetTimeInterval s t) bankgroup date (by rw [hs])
  have hr : (SetTimeInterval s t).clockrate = 1 / t := by rw [hs]
  exact ⟨hr, key _ (by rw [hs]) hr, key _ (by rw [hs]) (by rw [hs]), hi.2.trans hr,
    key _ hi.1 (hi.2.trans hr)⟩

/-- Witness for C17: an interval of 1/30 s on the loaded object, then `InitData` for the
"Left" bank, whose default clock rate is 1024. -/
theorem GetTimeDiff_interval_witness :
    (SetTimeInterval (loadedState 2048 1024) (1 / 30)).clockrate = 1 / (1 / 30) ∧
      GetTimeDiff (SetTimeInterval (loadedState 2048 1024) (1 / 30)) 0 = some (1 / 30) ∧
      GetTimeDiff { SetTimeInterval (loadedState 2048 1024) (1 / 30) with
        rawdata := fun _ => 9 } 0 = some (1 / 30) ∧
      (InitData (SetTimeInterval (loadedState 2048 1024) (1 / 30)) "Left"
        ⟨1, 1, 2001⟩).2.clockrate = 1 / (1 / 30) ∧
      GetTimeDiff (InitData (SetTimeInterval (loadedState 2048 1024) (1 / 30)) "Left"
        ⟨1, 1, 2001⟩).2 0 = some (1 / 30) :=
  GetTimeDiff_interval (loadedState 2048 1024) (1 / 30) 0 (fun _ => 9) "Left" ⟨1, 1, 2001⟩
    (by norm_num)

/-! ## An unsuccessful scan -/

theorem anyHeader_false_of (hdr : Nat) (data : List Int) (n : Nat)
    (h : ∀ i, i < n → isHeader hdr (rd data i) = false) : anyHeader hdr data n = false := by
  induction n with
  | zero => rfl
  | succ n ih =>
    rw [anyHeader_succ, ih (fun i hi => h i (by omega)), h n (by omega)]
    rfl

/-- Claim C19: when the scanned length is at most 10000 and no scanned word matches the
header pattern, `ExtractRaw` returns 0 and leaves both snapshot halves as they were: the
object changes in `found_crate` only. -/
theorem ExtractRaw_no_match (s : THaScaler) (data : List Int) (dlen : Int)
    (hl : scanLen s data dlen ≤ 10000)
    (hn : ∀ i, i < (scanLen s data dlen).toNat → isHeader s.header (rd data i) = false) :
    (ExtractRaw s (some data) dlen).1 = 0 ∧
      (ExtractRaw s (some data) dlen).2 = { s with found_crate := false } ∧
      (ExtractRaw s (some data) dlen).2.rawdata = s.rawdata ∧
      (∀ k, current (ExtractRaw s (some data) dlen).2 k = current s k ∧
        previous (ExtractRaw s (some data) dlen).2 k = previous s k) := by
  have hA := anyHeader_false_of s.header data _ hn
  have he : ExtractRaw s (some data) dlen = (0, { s with found_crate := false }) := by
    rw [ExtractRaw_eq, if_neg (by omega), hA, if_neg (by simp)]
  rw [he]
  exact ⟨rfl, rfl, rfl, fun _ => ⟨rfl, rfl⟩⟩

/-- Witness for C19: a six-word buffer without a header, on the loaded object. -/
theorem ExtractRaw_no_match_witness :
    (ExtractRaw (loadedState 2048 1024) (some [5, 1, 2, 3, 4, 5]) 0).1 = 0 ∧
      (ExtractRaw (loadedState 2048 1024) (some [5, 1, 2, 3, 4, 5]) 0).2 =
        { loadedState 2048 1024 with found_crate := false } ∧
      (ExtractRaw (loadedState 2048 1024) (some [5, 1, 2, 3, 4, 5]) 0).2.rawdata =
        (loadedState 2048 1024).rawdata ∧
      (∀ k, current (ExtractRaw (loadedState 2048 1024) (some [5, 1, 2, 3, 4, 5]) 0).2 k =
          current (loadedState 2048 1024) k ∧
        previous (ExtractRaw (loadedState 2048 1024) (some [5, 1, 2, 3, 4, 5]) 0).2 k =
          previous (loadedState 2048 1024) k) :=
  ExtractRaw_no_match (loadedState 2048 1024) [5, 1, 2, 3, 4, 5] 0 (by decide) (by decide)


/-! ## header_str_to_base16 -/

theorem charFind_strmap (c : Char) : charFind strmap c = hexDigitValue c := by
  by_cases h0 : c = '0'
  · subst h0; rfl
  by_cases h1 : c = '1'
  · subst h1; rfl
  by_cases h2 : c = '2'
  · subst h2; rfl
  by_cases h3 : c = '3'
  · subst h3; rfl
  by_cases h4 : c = '4'
  · subst h4; rfl
  by_cases h5 : c = '5'
  · subst h5; rfl
  by_cases h6 : c = '6'
  · subst h6; rfl
  by_cases h7 : c = '7'
  · subst h7; rfl
  by_cases h8 : c = '8'
  · subst h8; rfl
  by_cases h9 : c = '9'
  · subst h9; rfl
  by_cases ha : c = 'a'
  · subst ha; rfl
  by_cases hb : c = 'b'
  · subst hb; rfl
  by_cases hc : c = 'c'
  · subst hc; rfl
  by_cases hd : c = 'd'
  · subst hd; rfl
  by_cases he : c = 'e'
  · subst he; rfl
  by_cases hf : c = 'f'
  · subst hf; rfl
  have ne : ∀ d : Char, c ≠ d → c.toNat ≠ d.toNat := by
    intro d hcd h
    apply hcd
    apply Char.ext
    apply UInt32.ext
    exact h
  have n0 := ne _ h0
  have n1 := ne _ h1
  have n2 := ne _ h2
  have n3 := ne _ h3
  have n4 := ne _ h4
  have n5 := ne _ h5
  have n6 := ne _ h6
  have n7 := ne _ h7
  have n8 := ne _ h8
  have n9 := ne _ h9
  have na := ne _ ha
  have nb := ne _ hb
  have nc := ne _ hc
  have nd := ne _ hd
  have ne' := ne _ he
  have nf := ne _ hf
  have e0 : ('0' : Char).toNat = 48 := rfl
  have e1 : ('1' : Char).toNat = 49 := rfl
  have e2 : ('2' : Char).toNat = 50 := rfl
  have e3 : ('3' : Char).toNat = 51 := rfl
  have e4 : ('4' : Char).toNat = 52 := rfl
  have e5 : ('5' : Char).toNat = 53 := rfl
  have e6 : ('6' : Char).toNat = 54 := rfl
  have e7 : ('7' : Char).toNat = 55 := rfl
  have e8 : ('8' : Char).toNat = 56 := rfl
  have e9 : ('9' : Char).toNat = 57 := rfl
  have ea : ('a' : Char).toNat = 97 := rfl
  have eb : ('b' : Char).toNat = 98 := rfl
  have ec : ('c' : Char).toNat = 99 := rfl
  have ed : ('d' : Char).toNat = 100 := rfl
  have ee : ('e' : Char).toNat = 101 := rfl
  have ef : ('f' : Char).toNat = 102 := rfl
  rw [e0] at n0
  rw [e1] at n1
  rw [e2] at n2
  rw [e3] at n3
  rw [e4] at n4
  rw [e5] at n5
  rw [e6] at n6
  rw [e7] at n7
  rw [e8] at n8
  rw [e9] at n9
  rw [ea] at na
  rw [eb] at nb
  rw [ec] at nc
  rw [ed] at nd
  rw [ee] at ne'
  rw [ef] at nf
  have hv : hexDigitValue c = none := by
    unfold hexDigitValue
    rw [if_neg (by omega), if_neg (by omega)]
  rw [hv]
  have hs : strmap = [('0', 0), ('1', 1), ('2', 2), ('3', 3), ('4', 4), ('5', 5), ('6', 6),
      ('7', 7), ('8', 8), ('9', 9), ('a', 10), ('b', 11), ('c', 12), ('d', 13), ('e', 14),
      ('f', 15)] := by decide
  rw [hs]
  simp only [charFind]
  rw [if_neg (Ne.symm h0), if_neg (Ne.symm h1), if_neg (Ne.symm h2), if_neg (Ne.symm h3),
    if_neg (Ne.symm h4), if_neg (Ne.symm h5), if_neg (Ne.symm h6), if_neg (Ne.symm h7),
    if_neg (Ne.symm h8), if_neg (Ne.symm h9), if_neg (Ne.symm ha), if_neg (Ne.symm hb),
    if_neg (Ne.symm hc), if_neg (Ne.symm hd), if_neg (Ne.symm he), if_neg (Ne.symm hf)]

theorem collectDigits_eq (l : List Char) :
    ∀ acc : List Nat, acc.length ≤ 11 →
      collectDigits l acc = acc ++ (l.filterMap hexDigitValue).take (12 - acc.length) := by
  induction l with
  | nil =>
    intro acc _
    simp [collectDigits]
  | cons p rest ih =>
    intro acc hacc
    unfold collectDigits
    rw [charFind_strmap]
    cases hv : hexDigitValue p with
    | none =>
      simp only [linesize]
      rw [if_neg (by omega), ih acc hacc, List.filterMap_cons_none hv]
    | some d =>
      simp only [linesize, List.length_append, List.length_singleton]
      rw [List.filterMap_cons_some hv]
      by_cases c : acc.length + 1 > 12 - 1
      · rw [if_pos c]
        have e : 12 - acc.length = 1 := by omega
        rw [e]
        simp
      · rw [if_neg c, ih (acc ++ [d]) (by simp; omega)]
        have e : 12 - acc.length = (12 - (acc ++ [d]).length) + 1 := by
          simp
          omega
        rw [e, List.take_succ_cons]
        simp

theorem sumStep_fold_modEq (r : List Nat) :
    ∀ res pow : Nat,
      (r.foldl sumStep (res, pow)).1 ≡ res + pow * Nat.ofDigits 16 r [MOD 4294967296] := by
  induction r with
  | nil =>
    intro res pow
    simp [Nat.ModEq]
  | cons d r ih =>
    intro res pow
    rw [List.foldl_cons, Nat.ofDigits_cons]
    unfold sumStep
    have h1 : (res + d * pow % 4294967296) % 4294967296 ≡ res + d * pow [MOD 4294967296] :=
      (Nat.mod_modEq _ _).trans ((Nat.ModEq.refl res).add (Nat.mod_modEq _ _))
    have h2 : pow * 16 % 4294967296 ≡ pow * 16 [MOD 4294967296] := Nat.mod_modEq _ _
    refine (ih _ _).trans (((h1.add (h2.mul_right _))).trans ?_)
    have e : res + d * pow + pow * 16 * Nat.ofDigits 16 r =
        res + pow * (d + 16 * Nat.ofDigits 16 r) := by ring
    rw [e]

theorem sumStep_fold_lt (r : List Nat) :
    ∀ st : Nat × Nat, st.1 < 4294967296 → (r.foldl sumStep st).1 < 4294967296 := by
  induction r with
  | nil =>
    intro st h
    exact h
  | cons d r ih =>
    intro st _
    rw [List.foldl_cons]
    exact ih _ (Nat.mod_lt _ (by decide))

theorem hexValue_fold (ds : List Nat) :
    ∀ v : Nat, ds.foldl (fun v d => 16 * v + d) v =
      v * 16 ^ ds.length + Nat.ofDigits 16 ds.reverse := by
  induction ds with
  | nil =>
    intro v
    simp
  | cons d ds ih =>
    intro v
    rw [List.foldl_cons, ih, List.reverse_cons, Nat.ofDigits_append, Nat.ofDigits_singleton,
      List.length_reverse, List.length_cons]
    ring

theorem ofDigits_reverse_eq (ds : List Nat) : Nat.ofDigits 16 ds.reverse = hexValue ds := by
  unfold hexValue
  rw [hexValue_fold]
  simp

theorem header_str_to_base16_eq (hdr : String) :
    header_str_to_base16 hdr =
      hexValue ((hdr.toList.filterMap hexDigitValue).take 12) % 4294967296 := by
  unfold header_str_to_base16
  rw [collectDigits_eq hdr.toList [] (by simp)]
  have h := sumStep_fold_modEq ((hdr.toList.filterMap hexDigitValue).take 12).reverse 0 1
  have hl := sumStep_fold_lt ((hdr.toList.filterMap hexDigitValue).take 12).reverse (0, 1)
    (by decide)
  simp only [List.nil_append, List.length_nil, Nat.sub_zero]
  rw [ofDigits_reverse_eq] at h
  unfold Nat.ModEq at h
  rw [Nat.mod_eq_of_lt hl] at h
  rw [h]
  simp

theorem hexDigitValue_chex : ∀ d, d < 16 → hexDigitValue (chex.getD d '0') = some d := by
  decide

theorem hex8_digits (w : Nat) :
    (hex8 w).filterMap hexDigitValue =
      [w / 268435456 % 16, w / 16777216 % 16, w / 1048576 % 16, w / 65536 % 16,
        w / 4096 % 16, w / 256 % 16, w / 16 % 16, w % 16] := by
  unfold hex8
  rw [List.filterMap_cons_some (hexDigitValue_chex _ (Nat.mod_lt _ (by decide))),
    List.filterMap_cons_some (hexDigitValue_chex _ (Nat.mod_lt _ (by decide))),
    List.filterMap_cons_some (hexDigitValue_chex _ (Nat.mod_lt _ (by decide))),
    List.filterMap_cons_some (hexDigitValue_chex _ (Nat.mod_lt _ (by decide))),
    List.filterMap_cons_some (hexDigitValue_chex _ (Nat.mod_lt _ (by decide))),
    List.filterMap_cons_some (hexDigitValue_chex _ (Nat.mod_lt _ (by decide))),
    List.filterMap_cons_some (hexDigitValue_chex _ (Nat.mod_lt _ (by decide))),
    List.filterMap_cons_some (hexDigitValue_chex _ (Nat.mod_lt _ (by decide))),
    List.filterMap_nil]

/-- Claim C18: `header_str_to_base16` returns the base-16 value, modulo 2^32, of the first
(at most 12) characters of the string that are in 0-9 or a-f, skipping every other
character; and the 8-digit lowercase hexadecimal rendering of a 32-bit word is converted
back to the word. -/
theorem header_str_to_base16_spec (hdr : String) (w : Nat) :
    header_str_to_base16 hdr =
        hexValue ((hdr.toList.filterMap hexDigitValue).take 12) % 4294967296 ∧
      (w < 4294967296 → header_str_to_base16 (String.mk (hex8 w)) = w) := by
  refine ⟨header_str_to_base16_eq hdr, ?_⟩
  intro hw
  rw [header_str_to_base16_eq]
  show hexValue (((hex8 w).filterMap hexDigitValue).take 12) % 4294967296 = w
  rw [hex8_digits]
  simp only [hexValue, List.take, List.foldl]
  omega

/-- Witness for C18: the header string "abc60002" and the word `0xabc60002`. -/
theorem header_str_to_base16_spec_witness :
    header_str_to_base16 "abc60002" =
        hexValue (("abc60002".toList.filterMap hexDigitValue).take 12) % 4294967296 ∧
      header_str_to_base16 (String.mk (hex8 0xabc60002)) = 0xabc60002 :=
  ⟨(header_str_to_base16_spec "abc60002" 0xabc60002).1,
    (header_str_to_base16_spec "abc60002" 0xabc60002).2 (by decide)⟩


/-! ## Reads past the scanned length -/

/-- Claim C20 fails on the code: with header pattern `0xabc00000` and the buffer
`[1, 0xabc00001, 77]`, whose first word gives the length 2, the scanned length is 2, the last word is a header of slot 0 with one
channel, and the inner loop reads `data[2]`, which it stores at `current[0]`. -/
theorem ExtractRaw_reads_past_scan :
    scanLen { mk0 "Left" 100005 with header := 0xabc00000 } [1, toInt32 0xabc00001, 77] 0 = 2 ∧
      isHeader 0xabc00000 (rd [1, toInt32 0xabc00001, 77] 1) = true ∧
      numchanOf (rd [1, toInt32 0xabc00001, 77] 1) = 1 ∧
      ExtractRawReads { mk0 "Left" 100005 with header := 0xabc00000 }
        [1, toInt32 0xabc00001, 77] 0 = [0, 0, 1, 2] ∧
      ¬ (∀ j, j ∈ ExtractRawReads { mk0 "Left" 100005 with header := 0xabc00000 }
        [1, toInt32 0xabc00001, 77] 0 → j < 2) ∧
      current (ExtractRaw { mk0 "Left" 100005 with header := 0xabc00000 }
        (some [1, toInt32 0xabc00001, 77]) 0).2 0 = 77 := by
  refine ⟨by decide, by decide, by decide, by decide, ?_, by decide⟩
  intro h
  have h2 := h 2 (by decide)
  omega

/-! ## Online reply unpacking -/

theorem nchanOfChar_le (c : Char) : nchanOfChar c ≤ 32 := by
  unfold nchanOfChar
  by_cases h1 : c = '1' <;> by_cases h0 : c = '0' <;> simp [h1, h0]

theorem nch_le (message : List Char) (p : Nat) : nch message p ≤ 32 :=
  nchanOfChar_le _

theorem wordsBefore_mono (message : List Char) (p n : Nat) (h : p ≤ n) :
    wordsBefore message p ≤ wordsBefore message n := by
  induction n with
  | zero =>
    have : p = 0 := by omega
    rw [this]
  | succ n ih =>
    by_cases e : p = n + 1
    · rw [e]
    · have := ih (by omega)
      show _ ≤ wordsBefore message n + nch message n
      omega

theorem unpackWord_apply (ibuf : List Int) (jslot : Int) (raw : Int → Int) (ntot k : Nat)
    (h1 : jslot * 32 + (k : Int) < 384) (h2 : ntot < 320) :
    unpackWord ibuf jslot (raw, ntot) k =
      (setAt raw (jslot * 32 + (k : Int)) (rd ibuf ntot), ntot + 1) := by
  unfold unpackWord
  simp only [size_cast, numchan_cast, MAXBLK]
  rw [if_pos ⟨h1, h2⟩]

theorem unpackWord_full (ibuf : List Int) (jslot : Int) (raw : Int → Int) (ntot k : Nat)
    (h2 : 320 ≤ ntot) : unpackWord ibuf jslot (raw, ntot) k = (raw, ntot) := by
  unfold unpackWord
  simp only [MAXBLK]
  rw [if_neg (by omega)]

theorem unpackSlot_apply (ibuf : List Int) (jslot : Int) (raw : Int → Int) (ntot : Nat)
    (n : Nat) (hn : ntot + n ≤ 320) (hj : jslot * 32 + (n : Int) ≤ 384) :
    (List.range n).foldl (unpackWord ibuf jslot) (raw, ntot) =
      (fun i =>
        if jslot * 32 ≤ i ∧ i < jslot * 32 + (n : Int) then
          rd ibuf (ntot + (i - jslot * 32).toNat)
        else raw i, ntot + n) := by
  induction n with
  | zero =>
    rw [List.range_zero, List.foldl_nil]
    congr 1
    funext i
    rw [if_neg (by omega)]
  | succ n ih =>
    rw [List.range_succ, List.foldl_append, ih (by omega) (by omega), List.foldl_cons,
      List.foldl_nil, unpackWord_apply _ _ _ _ _ (by omega) (by omega)]
    congr 1
    funext i
    unfold setAt
    by_cases e : i = jslot * 32 + (n : Int)
    · rw [if_pos e, if_pos (by omega)]
      congr 1
      omega
    · rw [if_neg e]
      beta_reduce
      by_cases c : jslot * 32 ≤ i ∧ i < jslot * 32 + (n : Int)
      · rw [if_pos c, if_pos (by omega)]
      · rw [if_neg c, if_neg (by omega)]

theorem unpackSlot_full (ibuf : List Int) (jslot : Int) (raw : Int → Int) (ntot : Nat)
    (h : 320 ≤ ntot) (n : Nat) :
    (List.range n).foldl (unpackWord ibuf jslot) (raw, ntot) = (raw, ntot) := by
  induction n with
  | zero => rfl
  | succ n ih =>
    rw [List.range_succ, List.foldl_append, ih, List.foldl_cons, List.foldl_nil,
      unpackWord_full _ _ _ _ _ h]

theorem unpackSlots_full (message : List Char) (onlmap ibuf : List Int) (raw : Int → Int)
    (ntot : Nat) (h : 320 ≤ ntot) (fuel : Nat) :
    ∀ p, (unpackSlots message onlmap ibuf fuel p (raw, ntot)).2 = (raw, ntot) := by
  induction fuel with
  | zero =>
    intro p
    rfl
  | succ fuel ih =>
    intro p
    unfold unpackSlots
    split
    · rfl
    · split
      · rfl
      · rw [unpackSlot_full _ _ _ _ h]
        exact ih _

theorem unpackSlots_split (message : List Char) (onlmap ibuf : List Int) (f2 : Nat)
    (f1 : Nat) :
    ∀ (p : Nat) (st : (Int → Int) × Nat), p + f1 ≤ 50 →
      (∀ r, p ≤ r → r < p + f1 → nch message r ≠ 0) →
      unpackSlots message onlmap ibuf (f1 + f2) p st =
        unpackSlots message onlmap ibuf f2 (p + f1)
          (unpackSlots message onlmap ibuf f1 p st).2 := by
  induction f1 with
  | zero =>
    intro p st _ _
    rw [Nat.zero_add]
    rfl
  | succ f1 ih =>
    intro p st hp hv
    have e : f1 + 1 + f2 = (f1 + f2) + 1 := by omega
    rw [e]
    have hnz : ¬ nchanOfChar (message.getD p (Char.ofNat 0)) = 0 := hv p (le_refl _) (by omega)
    have hm : ¬ p ≥ MSGSIZE := by
      unfold MSGSIZE
      omega
    rw [unpackSlots, if_neg hm, if_neg hnz, ih (p + 1) _ (by omega)
      (fun r h1 h2 => hv r (by omega) (by omega))]
    conv_rhs => rw [unpackSlots, if_neg hm, if_neg hnz]
    rw [show p + 1 + f1 = p + (f1 + 1) by omega]

theorem unpackSlots_spec (message : List Char) (onlmap ibuf : List Int) (n : Nat)
    (hwords : wordsBefore message n ≤ 320) (fuel : Nat) :
    ∀ (p : Nat) (raw : Int → Int), p ≤ n → n ≤ p + fuel → p + fuel ≤ 50 →
      (∀ r, p ≤ r → r < n → nch message r ≠ 0) →
      (n = p + fuel ∨ nch message n = 0) →
      (∀ r, p ≤ r → r < n → 0 ≤ onlmap.getD r 0 ∧ onlmap.getD r 0 < 12) →
      (∀ r r', p ≤ r → r < r' → r' < n → onlmap.getD r 0 ≠ onlmap.getD r' 0) →
      (unpackSlots message onlmap ibuf fuel p (raw, wordsBefore message p)).1 = false ∧
        (unpackSlots message onlmap ibuf fuel p (raw, wordsBefore message p)).2.2 =
          wordsBefore message n ∧
        (∀ r k, p ≤ r → r < n → k < nch message r →
          (unpackSlots message onlmap ibuf fuel p (raw, wordsBefore message p)).2.1
              (onlmap.getD r 0 * 32 + (k : Int)) =
            rd ibuf (wordsBefore message r + k)) ∧
        (∀ i : Int,
          (∀ r, p ≤ r → r < n →
            ¬ (onlmap.getD r 0 * 32 ≤ i ∧ i < onlmap.getD r 0 * 32 + (nch message r : Nat))) →
          (unpackSlots message onlmap ibuf fuel p (raw, wordsBefore message p)).2.1 i =
            raw i) := by
  induction fuel with
  | zero =>
    intro p raw h1 h2 _ _ _ _ _
    have e : n = p := by omega
    subst e
    refine ⟨rfl, rfl, ?_, ?_⟩
    · intro r k hr1 hr2
      omega
    · intro i _
      rfl
  | succ fuel ih =>
    intro p raw h1 h2 h3 hv hstop honl hinj
    have hm : ¬ p ≥ MSGSIZE := by
      unfold MSGSIZE
      omega
    by_cases hz : nch message p = 0
    · have e : n = p := by
        by_contra hne
        exact hv p (le_refl _) (by omega) hz
      subst e
      have hz2 : nchanOfChar (message.getD n (Char.ofNat 0)) = 0 := hz
      rw [unpackSlots, if_neg hm, if_pos hz2]
      refine ⟨rfl, rfl, ?_, ?_⟩
      · intro r k hr1 hr2
        omega
      · intro i _
        rfl
    · have hpn : p < n := by
        rcases hstop with h | h
        · omega
        · by_contra hne
          have e : n = p := by omega
          rw [e] at h
          exact hz h
      have hz2 : ¬ nchanOfChar (message.getD p (Char.ofNat 0)) = 0 := hz
      have hwp : wordsBefore message (p + 1) ≤ 320 :=
        le_trans (wordsBefore_mono message (p + 1) n hpn) hwords
      have hwp2 : wordsBefore message (p + 1) = wordsBefore message p + nch message p := rfl
      have hjp := honl p (le_refl _) hpn
      have hnp := nch_le message p
      have hslot := unpackSlot_apply ibuf (onlmap.getD p 0) raw (wordsBefore message p)
        (nch message p) (by omega) (by omega)
      have hslot2 : (List.range (nchanOfChar (message.getD p (Char.ofNat 0)))).foldl
          (unpackWord ibuf (onlmap.getD p 0)) (raw, wordsBefore message p) =
          (fun i =>
            if onlmap.getD p 0 * 32 ≤ i ∧ i < onlmap.getD p 0 * 32 + (nch message p : Nat) then
              rd ibuf (wordsBefore message p + (i - onlmap.getD p 0 * 32).toNat)
            else raw i, wordsBefore message (p + 1)) := hslot
      rw [unpackSlots, if_neg hm, if_neg hz2, hslot2]
      have IH := ih (p + 1)
        (fun i =>
          if onlmap.getD p 0 * 32 ≤ i ∧ i < onlmap.getD p 0 * 32 + (nch message p : Nat) then
            rd ibuf (wordsBefore message p + (i - onlmap.getD p 0 * 32).toNat)
          else raw i)
        (by omega) (by omega) (by omega) (fun r a b => hv r (by omega) b)
        (by omega) (fun r a b => honl r (by omega) b)
        (fun r r' a b c => hinj r r' (by omega) b c)
      refine ⟨IH.1, IH.2.1, ?_, ?_⟩
      · intro r k hr1 hr2 hk
        by_cases e : r = p
        · subst e
          rw [IH.2.2.2 _ (fun r' a b hin => by
            have hj2 := honl r' (by omega) b
            have hne := hinj r r' (le_refl _) (by omega) b
            have hn2 := nch_le message r'
            omega)]
          simp only
          rw [if_pos (by omega)]
          congr 1
          omega
        · exact IH.2.2.1 r k (by omega) hr2 hk
      · intro i hi
        rw [IH.2.2.2 i (fun r a b => hi r (by omega) b)]
        simp only
        rw [if_neg (hi p (le_refl _) hpn)]

theorem unpackSlots_fst (message : List Char) (onlmap ibuf : List Int) (fuel : Nat) :
    ∀ (p : Nat) (st : (Int → Int) × Nat), p + fuel ≤ 50 →
      (unpackSlots message onlmap ibuf fuel p st).1 = false := by
  induction fuel with
  | zero =>
    intro p st _
    rfl
  | succ fuel ih =>
    intro p st hp
    have hm : ¬ p ≥ MSGSIZE := by
      unfold MSGSIZE
      omega
    rw [unpackSlots, if_neg hm]
    split
    · rfl
    · exact ih _ _ (by omega)

theorem LoadDataOnline_reply (s : THaScaler) (message : List Char) (ibuf : List Int)
    (hinit : s.did_init = true) :
    (LoadDataOnline s (.reply message ibuf)).1 = 0 ∧
      (LoadDataOnline s (.reply message ibuf)).2.rawdata =
        (unpackSlots message s.onlmap ibuf SCAL_NUMBANK 0
          (clearRaw (loadPreviousRaw s.rawdata), 0)).2.1 := by
  have hf := unpackSlots_fst message s.onlmap ibuf SCAL_NUMBANK 0
    (clearRaw (loadPreviousRaw s.rawdata), 0) (by decide)
  unfold LoadDataOnline CheckInit
  simp only [hinit, Bool.not_true, Bool.false_eq_true, if_false]
  rw [if_neg (by decide), hf]
  exact ⟨rfl, rfl⟩

theorem rd_replicate (n : Nat) (v : Int) (i : Nat) (h : i < n) :
    rd (List.replicate n v) i = v := by
  unfold rd
  simp [List.getD_eq_getElem?_getD, List.getElem?_replicate, h]

theorem onlineMap_getD : ∀ r, r < 12 → onlineState.onlmap.getD r 0 = (r : Int) := by
  decide

theorem ones_nch : ∀ r, r < 12 → nch "111111111111".toList r = 32 := by
  decide

theorem unpackSlots_run (message : List Char) (onlmap ibuf : List Int) (raw : Int → Int)
    (n fuel : Nat) (hn : n ≤ fuel) (hfuel : fuel ≤ 50)
    (hwords : wordsBefore message n ≤ 320)
    (hstop : n = fuel ∨ nch message n = 0 ∨ wordsBefore message n = 320)
    (hv : ∀ r, r < n → nch message r ≠ 0)
    (honl : ∀ r, r < n → 0 ≤ onlmap.getD r 0 ∧ onlmap.getD r 0 < 12)
    (hinj : ∀ r r', r < r' → r' < n → onlmap.getD r 0 ≠ onlmap.getD r' 0) :
    (∀ r k, r < n → k < nch message r →
        (unpackSlots message onlmap ibuf fuel 0 (raw, 0)).2.1
            (onlmap.getD r 0 * 32 + (k : Int)) =
          rd ibuf (wordsBefore message r + k)) ∧
      (∀ i : Int,
        (∀ r, r < n →
          ¬ (onlmap.getD r 0 * 32 ≤ i ∧ i < onlmap.getD r 0 * 32 + (nch message r : Nat))) →
        (unpackSlots message onlmap ibuf fuel 0 (raw, 0)).2.1 i = raw i) := by
  have hspec := unpackSlots_spec message onlmap ibuf n hwords n 0 raw (Nat.zero_le _)
    (by omega) (by omega) (fun r _ h => hv r h) (Or.inl (by omega))
    (fun r _ h => honl r h) (fun r r' _ h1 h2 => hinj r r' h1 h2)
  have hw0 : wordsBefore message 0 = 0 := rfl
  rw [hw0] at hspec
  have hfin : (unpackSlots message onlmap ibuf fuel 0 (raw, 0)).2.1 =
      (unpackSlots message onlmap ibuf n 0 (raw, 0)).2.1 := by
    have ef : fuel = n + (fuel - n) := by omega
    have hsplit := unpackSlots_split message onlmap ibuf (fuel - n) n 0 (raw, 0) (by omega)
      (fun r _ h => hv r (by omega))
    rw [← ef, Nat.zero_add] at hsplit
    rw [hsplit]
    rcases hstop with h | h | h
    · have e0 : fuel - n = 0 := by omega
      rw [e0]
      rfl
    · cases hf : fuel - n with
      | zero => rfl
      | succ m =>
        have hm : ¬ n ≥ MSGSIZE := by
          unfold MSGSIZE
          omega
        have hz : nchanOfChar (message.getD n (Char.ofNat 0)) = 0 := h
        rw [unpackSlots, if_neg hm, if_pos hz]
    · have hst : (unpackSlots message onlmap ibuf n 0 (raw, 0)).2 =
          ((unpackSlots message onlmap ibuf n 0 (raw, 0)).2.1, 320) :=
        Prod.ext rfl (hspec.2.1.trans h)
      rw [hst, unpackSlots_full _ _ _ _ _ (le_refl _)]
  rw [hfin]
  exact ⟨fun r k h1 h2 => hspec.2.2.1 r k (Nat.zero_le _) h1 h2,
    fun i hi => hspec.2.2.2 i (fun r _ h => hi r h)⟩

/-- Claim C15, as stated, fails: for a reply whose message announces twelve slots of 32
channels and whose 320 words are all 7, the words of the first ten positions are copied,
but nothing is copied for position 10 and `current[10*SCAL_NUMCHAN]` stays 0. -/
theorem online_reply_truncated :
    onlineState.did_init = true ∧
      (LoadDataOnline onlineState
        (.reply "111111111111".toList (List.replicate 320 7))).1 = 0 ∧
      current (LoadDataOnline onlineState
        (.reply "111111111111".toList (List.replicate 320 7))).2 (9 * SCAL_NUMCHAN + 31) = 7 ∧
      current (LoadDataOnline onlineState
        (.reply "111111111111".toList (List.replicate 320 7))).2 (10 * SCAL_NUMCHAN + 0) = 0 := by
  have hr := LoadDataOnline_reply onlineState "111111111111".toList (List.replicate 320 7) rfl
  have hw10 : wordsBefore "111111111111".toList 10 = 320 := by decide
  have hw9 : wordsBefore "111111111111".toList 9 = 288 := by decide
  have hrun := unpackSlots_run "111111111111".toList onlineState.onlmap (List.replicate 320 7)
    (clearRaw (loadPreviousRaw onlineState.rawdata)) 10 SCAL_NUMBANK (by decide) (by decide)
    (by rw [hw10]) (Or.inr (Or.inr hw10))
    (fun r h2 => by rw [ones_nch r (by omega)]; decide)
    (fun r h2 => by rw [onlineMap_getD r (by omega)]; omega)
    (fun r r' h2 h3 => by
      rw [onlineMap_getD r (by omega), onlineMap_getD r' (by omega)]
      omega)
  refine ⟨rfl, hr.1, ?_, ?_⟩
  · have h := hrun.1 9 31 (by decide) (by rw [ones_nch 9 (by decide)]; decide)
    rw [onlineMap_getD 9 (by decide), hw9] at h
    have e : (((9 * SCAL_NUMCHAN + 31 : Nat)) : Int) = ((9 : Nat) : Int) * 32 + ((31 : Nat) : Int) := by
      decide
    rw [current_eq, hr.2, e, h]
    exact rd_replicate 320 7 (288 + 31) (by decide)
  · have h := hrun.2 320 (fun r h2 => by
      rw [onlineMap_getD r (by omega), ones_nch r (by omega)]
      omega)
    have e : (((10 * SCAL_NUMCHAN + 0 : Nat)) : Int) = 320 := by decide
    rw [current_eq, hr.2, e, h, clearRaw_apply, if_pos (by decide)]

/-- Claim C15, amended: for a reply whose first `n` message characters are '0' (16
channels) or '1' (32 channels), where the unpacking stops after position `n - 1` (at the
last of the `SCAL_NUMBANK` positions, at another character, or with all 320 reply words
used), whose words for these positions fit in the 320-word reply buffer, and an online map
that sends these positions to distinct slots below `SCAL_NUMBANK`: `LoadDataOnline`
returns 0, the words of position `r` are `current[onlmap[r]*SCAL_NUMCHAN + k]` in reply
order, every other entry of the current half is 0, and the previous half holds the
pre-call current values. -/
theorem LoadDataOnline_unpack (s : THaScaler) (message : List Char) (ibuf : List Int)
    (n : Nat) (hinit : s.did_init = true) (hn : n ≤ SCAL_NUMBANK)
    (hv : ∀ r, r < n → nch message r ≠ 0)
    (hstop : n = SCAL_NUMBANK ∨ nch message n = 0 ∨ wordsBefore message n = 16 * MAXBLK)
    (hwords : wordsBefore message n ≤ 16 * MAXBLK)
    (honl : ∀ r, r < n → 0 ≤ s.onlmap.getD r 0 ∧ s.onlmap.getD r 0 < (SCAL_NUMBANK : Nat))
    (hinj : ∀ r r', r < r' → r' < n → s.onlmap.getD r 0 ≠ s.onlmap.getD r' 0) :
    nchanOfChar '0' = 16 ∧ nchanOfChar '1' = 32 ∧
      (∀ c : Char, c ≠ '0' → c ≠ '1' → nchanOfChar c = 0) ∧
      (LoadDataOnline s (.reply message ibuf)).1 = 0 ∧
      (∀ r k, r < n → k < nch message r →
        (LoadDataOnline s (.reply message ibuf)).2.rawdata
            (s.onlmap.getD r 0 * (SCAL_NUMCHAN : Nat) + (k : Int)) =
          rd ibuf (wordsBefore message r + k)) ∧
      (∀ i : Nat, i < SCAL_NUMBANK * SCAL_NUMCHAN →
        (∀ r, r < n →
          ¬ (s.onlmap.getD r 0 * (SCAL_NUMCHAN : Nat) ≤ (i : Int) ∧
            (i : Int) < s.onlmap.getD r 0 * (SCAL_NUMCHAN : Nat) + (nch message r : Nat))) →
        current (LoadDataOnline s (.reply message ibuf)).2 i = 0) ∧
      (∀ i : Nat, i < SCAL_NUMBANK * SCAL_NUMCHAN →
        previous (LoadDataOnline s (.reply message ibuf)).2 i = current s i) := by
  have hr := LoadDataOnline_reply s message ibuf hinit
  have hn12 : n ≤ 12 := hn
  have hrun := unpackSlots_run message s.onlmap ibuf (clearRaw (loadPreviousRaw s.rawdata)) n
    SCAL_NUMBANK hn (by decide) hwords hstop hv
    (fun r h => by
      have := honl r h
      simp only [SCAL_NUMBANK] at this
      exact this)
    hinj
  refine ⟨by decide, by decide, ?_, hr.1, ?_, ?_, ?_⟩
  · intro c h0 h1
    unfold nchanOfChar
    simp [h0, h1]
  · intro r k h1 h2
    rw [hr.2, numchan_cast]
    exact hrun.1 r k h1 h2
  · intro i hi hout
    have hi2 : i < 384 := hi
    rw [current_eq, hr.2, hrun.2 i (fun r h => by
      have := hout r h
      rw [numchan_cast] at this
      exact this), clearRaw_apply, if_pos (by omega)]
  · intro i hi
    have hi2 : i < 384 := hi
    rw [previous_eq, current_eq, hr.2, hrun.2 _ (fun r h => by
      have h1 := honl r h
      have h2 := nch_le message r
      simp only [SCAL_NUMBANK] at h1
      omega), clearRaw_apply, if_neg (by omega), loadPreviousRaw_apply, if_pos (by omega),
      show ((i : Int) + 384 - 384) = i by omega]

/-- Witness for the amended C15: a reply announcing a slot of 32 channels and a slot of
16 channels, on the object with the online map of the "Left" bank. -/
theorem LoadDataOnline_unpack_witness :
    (LoadDataOnline onlineState (.reply "10".toList (List.replicate 320 7))).1 = 0 ∧
      (∀ r k, r < 2 → k < nch "10".toList r →
        (LoadDataOnline onlineState (.reply "10".toList (List.replicate 320 7))).2.rawdata
            (onlineState.onlmap.getD r 0 * (SCAL_NUMCHAN : Nat) + (k : Int)) =
          rd (List.replicate 320 7) (wordsBefore "10".toList r + k)) ∧
      (∀ i : Nat, i < SCAL_NUMBANK * SCAL_NUMCHAN →
        previous (LoadDataOnline onlineState (.reply "10".toList (List.replicate 320 7))).2 i =
          current onlineState i) :=
  have h := LoadDataOnline_unpack onlineState "10".toList (List.replicate 320 7) 2 rfl
    (by decide) (by decide) (Or.inr (Or.inl (by decide))) (by decide)
    (fun r h => by rw [onlineMap_getD r (by omega)]; simp only [SCAL_NUMBANK]; omega)
    (fun r r' h1 h2 => by
      rw [onlineMap_getD r (by omega), onlineMap_getD r' (by omega)]
      omega)
  ⟨h.2.2.2.1, h.2.2.2.2.1, h.2.2.2.2.2.2⟩


/-! ## Slot locality of a bank -/

theorem scanStep_later_header (data : List Int) (i : Nat) (st : THaScaler)
    (hh : isHeader st.header (rd data i) = true) :
    (scanStep data (false, st) i).2.rawdata =
      copyBank data i (slotOf (rd data i)) (numchanOf (rd data i)) st.rawdata := by
  unfold scanStep
  simp only [hh, if_true]
  rfl

/-- Claim C21, as stated, fails: a header of slot 0 whose count field is 33 writes its
33rd channel word to index 32, the first entry of slot 1; in the buffer below the bank of
slot 1 stores `0x55` there and the later header of slot 0 replaces it by 9. -/
theorem bank_spills_into_next_slot :
    isHeader 0xabc00000 (toInt32 0xabc00021) = true ∧ slotOf (toInt32 0xabc00021) = 0 ∧
      numchanOf (toInt32 0xabc00021) = 33 ∧
      current (ExtractRaw { mk0 "Left" 100005 with header := 0xabc00000 }
        (some [2, toInt32 0xabc10001, 0x55]) 0).2 (1 * SCAL_NUMCHAN + 0) = 0x55 ∧
      current (ExtractRaw { mk0 "Left" 100005 with header := 0xabc00000 }
        (some ([36, toInt32 0xabc10001, 0x55, toInt32 0xabc00021] ++ List.replicate 33 9)) 0).2
          (1 * SCAL_NUMCHAN + 0) = 9 := by
  refine ⟨by decide, by decide, by decide, by decide, ?_⟩
  rw [current_eq, ExtractRaw_rawdata]
  decide

/-- Claim C21, amended: the writes caused by a matching header with decoded slot `s` and
decoded channel count `n` touch only the indices from `s*SCAL_NUMCHAN` up to
`s*SCAL_NUMCHAN + n`, cut at the end of the current half, and store the channel words
there; when `n` is at most `SCAL_NUMCHAN` these are entries of slot `s` only and every
other slot keeps its values. -/
theorem bank_write_range (data : List Int) (i : Nat) (st : THaScaler) (k : Int)
    (hh : isHeader st.header (rd data i) = true) :
    (¬ ((slotOf (rd data i) : Int) * (SCAL_NUMCHAN : Nat) ≤ k ∧
          k < (slotOf (rd data i) : Int) * (SCAL_NUMCHAN : Nat) + (numchanOf (rd data i) : Nat) ∧
          k < (SCAL_NUMBANK * SCAL_NUMCHAN : Nat)) →
        (scanStep data (false, st) i).2.rawdata k = st.rawdata k) ∧
      (numchanOf (rd data i) ≤ SCAL_NUMCHAN →
        ¬ ((slotOf (rd data i) : Int) * (SCAL_NUMCHAN : Nat) ≤ k ∧
          k < ((slotOf (rd data i) : Int) + 1) * (SCAL_NUMCHAN : Nat)) →
        (scanStep data (false, st) i).2.rawdata k = st.rawdata k) ∧
      ((slotOf (rd data i) : Int) * (SCAL_NUMCHAN : Nat) ≤ k ∧
          k < (slotOf (rd data i) : Int) * (SCAL_NUMCHAN : Nat) + (numchanOf (rd data i) : Nat) ∧
          k < (SCAL_NUMBANK * SCAL_NUMCHAN : Nat) →
        (scanStep data (false, st) i).2.rawdata k =
          rd data (i + 1 + (k - (slotOf (rd data i) : Int) * (SCAL_NUMCHAN : Nat)).toNat)) := by
  have hn : numchanOf (rd data i) ≤ SCAL_NUMCHAN → numchanOf (rd data i) ≤ 32 := fun h => h
  rw [scanStep_later_header data i st hh, copyBank_apply, numchan_cast, size_cast]
  refine ⟨?_, ?_, ?_⟩
  · intro h
    rw [if_neg h]
  · intro h32 h
    have := hn h32
    rw [if_neg (by omega)]
  · intro h
    rw [if_pos h]

/-- Witness for the amended C21: a header of slot 2 with three channels, after an earlier
header in the same scan; index 100 of slot 3 keeps its value. -/
theorem bank_write_range_witness :
    (scanStep [5, toInt32 0xabc20003, 7, 8, 9, 0] (false, loadedState 2048 1024) 1).2.rawdata
        100 = (loadedState 2048 1024).rawdata 100 ∧
      (scanStep [5, toInt32 0xabc20003, 7, 8, 9, 0] (false, loadedState 2048 1024) 1).2.rawdata
        65 = rd [5, toInt32 0xabc20003, 7, 8, 9, 0]
          (1 + 1 + (65 - (slotOf (rd [5, toInt32 0xabc20003, 7, 8, 9, 0] 1) : Int) *
            (SCAL_NUMCHAN : Nat)).toNat) :=
  ⟨(bank_write_range [5, toInt32 0xabc20003, 7, 8, 9, 0] 1 (loadedState 2048 1024) 100
      (by decide)).2.1 (by decide) (by decide),
    (bank_write_range [5, toInt32 0xabc20003, 7, 8, 9, 0] 1 (loadedState 2048 1024) 65
      (by decide)).2.2 (by decide)⟩

end Scaler
